import Mathlib

/-!
A shallow embedding of the viny-markdown note-synchronization engine
(desktop client in `apps/desktop/src-tauri/src` and sync server in
`apps/server/src`), together with theorems about its LWW merge, sync
cursors, referential cleanup, backup codec and server upsert semantics.

Conventions of the embedding:
* SQLite tables are lists of row structures, in rowid order; `INSERT OR
  REPLACE` deletes every row conflicting with the new one (same primary
  key, and for the client `tags` table also a row with the same UNIQUE
  name) and appends the new row at the end.  With `PRAGMA foreign_keys =
  ON`, the implicit deletes fire the schema's `ON DELETE SET NULL`
  actions, and a statement whose inserted row violates a foreign-key or
  UNIQUE constraint fails, leaving the database as before that statement
  (statements are atomic) but keeping earlier statements committed (the
  loops run outside a transaction).
* The `status` column of `notes` is modelled by the `NoteStatus`
  enumeration: the schema constrains it with
  `CHECK (status IN ('active','archived','trashed'))` and the Rust code
  converts with `NoteStatus::as_str` / `NoteStatus::from_str`, which are
  mutually inverse on the three allowed strings.
* `is_pinned` is an `INTEGER` column written as `bool as i32` and read as
  `!= 0`; it is modelled as `Bool`.
* i64 and i32 values are modelled as `Int` (no arithmetic here comes near
  the overflow boundary).
* Timestamps are RFC-3339 strings; Rust compares them with `String`
  comparison (byte-lexicographic), modelled by `strLtB` below
  (codepoint-lexicographic, which agrees with byte order on UTF-8).
-/

set_option maxRecDepth 4096

-- ===========================================================================
-- String helpers: lexicographic order, substring containment, SQL REPLACE
-- ===========================================================================

/-- Lexicographic comparison of char lists; mirrors Rust `String` `Ord`. -/
def charListLtB : List Char → List Char → Bool
  | [], [] => false
  | [], _ :: _ => true
  | _ :: _, [] => false
  | a :: as, b :: bs => if a < b then true else if b < a then false else charListLtB as bs

/-- Strict `<` on strings as Rust compares `String`s (used for `updated_at`). -/
def strLtB (a b : String) : Bool := charListLtB a.data b.data

/-- Does `s` start with `pat`? -/
def charsStartWith : List Char → List Char → Bool
  | _, [] => true
  | [], _ :: _ => false
  | a :: as, b :: bs => a = b && charsStartWith as bs

/-- Fold upper-case ASCII letters to lower case; SQLite's default `LIKE`
is case-insensitive for ASCII characters only. -/
def toLowerAscii (c : Char) : Char :=
  if 'A' ≤ c ∧ c ≤ 'Z' then Char.ofNat (c.toNat + 32) else c

/-- `LIKE` comparison of a literal pattern character with a text character:
ASCII-case-insensitive equality. -/
def charLikeEq (p c : Char) : Bool := toLowerAscii p = toLowerAscii c

/-- Fuel-indexed SQLite `LIKE` matcher over char lists: `%` matches any
sequence, `_` matches any single character, and every other pattern
character matches ASCII-case-insensitively.  The fuel
`pattern.length + text.length + 1` always suffices. -/
def likeMatchAux : Nat → List Char → List Char → Bool
  | 0, _, _ => false
  | fuel + 1, pat, t =>
    match pat, t with
    | [], [] => true
    | [], _ :: _ => false
    | '%' :: ps, [] => likeMatchAux fuel ps []
    | '%' :: ps, c :: ts =>
      likeMatchAux fuel ps (c :: ts) || likeMatchAux fuel ('%' :: ps) ts
    | '_' :: _, [] => false
    | '_' :: ps, _ :: ts => likeMatchAux fuel ps ts
    | _ :: _, [] => false
    | p :: ps, c :: ts => charLikeEq p c && likeMatchAux fuel ps ts

/-- SQL `text LIKE pattern` with SQLite's default semantics. -/
def sqlLike (text pattern : String) : Bool :=
  likeMatchAux (pattern.data.length + text.data.length + 1) pattern.data text.data

/-- One fuel-indexed pass of SQLite's `REPLACE(X, Y, Z)`: left-to-right,
non-overlapping replacement of every occurrence of `pat` by `rep`. -/
def sqlReplaceAux (pat rep : List Char) : Nat → List Char → List Char
  | 0, s => s
  | _ + 1, [] => []
  | fuel + 1, c :: rest =>
    if pat ≠ [] ∧ charsStartWith (c :: rest) pat then
      rep ++ sqlReplaceAux pat rep fuel ((c :: rest).drop pat.length)
    else
      c :: sqlReplaceAux pat rep fuel rest

/-- SQLite `REPLACE(s, pat, rep)`. -/
def sqlReplace (s pat rep : String) : String :=
  ⟨sqlReplaceAux pat.data rep.data s.data.length s.data⟩

-- ===========================================================================
-- JSON codec for the serialized tag list (serde_json for Vec<String>)
-- ===========================================================================

/-- Lower-case hex digit for `n < 16`. -/
def hexDigitChar (n : Nat) : Char :=
  if n < 10 then Char.ofNat ('0'.toNat + n) else Char.ofNat ('a'.toNat + (n - 10))

/-- serde_json string escaping of a single character. -/
def jsonEscapeChar (c : Char) : List Char :=
  if c = '"' then ['\\', '"']
  else if c = '\\' then ['\\', '\\']
  else if c = '\n' then ['\\', 'n']
  else if c = '\r' then ['\\', 'r']
  else if c = '\t' then ['\\', 't']
  else if c = '\x08' then ['\\', 'b']
  else if c = '\x0c' then ['\\', 'f']
  else if c.toNat < 32 then ['\\', 'u', '0', '0', hexDigitChar (c.toNat / 16), hexDigitChar (c.toNat % 16)]
  else [c]

/-- serde_json encoding of one string. -/
def jsonEncodeString (s : String) : String :=
  ⟨'"' :: (s.data.map jsonEscapeChar).flatten ++ ['"']⟩

/-- `serde_json::to_string` for a `Vec<String>` of tag names. -/
def jsonEncodeTags (ts : List String) : String :=
  "[" ++ String.intercalate "," (ts.map jsonEncodeString) ++ "]"

/-- Hex digit value. -/
def hexVal (c : Char) : Option Nat :=
  if '0' ≤ c ∧ c ≤ '9' then some (c.toNat - '0'.toNat)
  else if 'a' ≤ c ∧ c ≤ 'f' then some (c.toNat - 'a'.toNat + 10)
  else if 'A' ≤ c ∧ c ≤ 'F' then some (c.toNat - 'A'.toNat + 10)
  else none

/-- Skip JSON whitespace. -/
def skipWs : List Char → List Char
  | c :: rest => if c = ' ' ∨ c = '\n' ∨ c = '\t' ∨ c = '\r' then skipWs rest else c :: rest
  | [] => []

/-- Parse the body of a JSON string after the opening quote, returning the
decoded characters and the remaining input.  Rejects raw control
characters and unknown escapes, as serde_json does. -/
def parseStringBody : Nat → List Char → Option (List Char × List Char)
  | 0, _ => none
  | _ + 1, [] => none
  | fuel + 1, c :: rest =>
    if c = '"' then some ([], rest)
    else if c = '\\' then
      match rest with
      | [] => none
      | e :: rest2 =>
        if e = '"' ∨ e = '\\' ∨ e = '/' then
          (parseStringBody fuel rest2).map (fun p => (e :: p.1, p.2))
        else if e = 'n' then (parseStringBody fuel rest2).map (fun p => ('\n' :: p.1, p.2))
        else if e = 't' then (parseStringBody fuel rest2).map (fun p => ('\t' :: p.1, p.2))
        else if e = 'r' then (parseStringBody fuel rest2).map (fun p => ('\r' :: p.1, p.2))
        else if e = 'b' then (parseStringBody fuel rest2).map (fun p => ('\x08' :: p.1, p.2))
        else if e = 'f' then (parseStringBody fuel rest2).map (fun p => ('\x0c' :: p.1, p.2))
        else if e = 'u' then
          match rest2 with
          | h1 :: h2 :: h3 :: h4 :: rest3 =>
            match hexVal h1, hexVal h2, hexVal h3, hexVal h4 with
            | some a, some b, some c2, some d =>
              let n := ((a * 16 + b) * 16 + c2) * 16 + d
              if h : n.isValidChar then
                (parseStringBody fuel rest3).map (fun p => (Char.ofNatAux n h :: p.1, p.2))
              else none
            | _, _, _, _ => none
          | _ => none
        else none
    else if c.toNat < 32 then none
    else (parseStringBody fuel rest).map (fun p => (c :: p.1, p.2))

/-- Parse the comma-separated string elements of a JSON array, positioned at
the start of an element; returns the elements and the input after `]`. -/
def parseElemsLoop : Nat → List Char → Option (List String × List Char)
  | 0, _ => none
  | fuel + 1, s =>
    match s with
    | '"' :: rest =>
      match parseStringBody rest.length rest with
      | none => none
      | some (chars, rest2) =>
        match skipWs rest2 with
        | ',' :: rest3 =>
          (parseElemsLoop fuel (skipWs rest3)).map (fun p => ((⟨chars⟩ : String) :: p.1, p.2))
        | ']' :: rest3 => some ([⟨chars⟩], rest3)
        | _ => none
    | _ => none

/-- `serde_json::from_str::<Vec<String>>`: parse a JSON array of strings,
requiring the whole input to be consumed. -/
def parseTags (s : String) : Option (List String) :=
  match skipWs s.data with
  | '[' :: rest =>
    match skipWs rest with
    | ']' :: rest2 => if (skipWs rest2).isEmpty then some [] else none
    | r =>
      match parseElemsLoop s.data.length r with
      | some (xs, rest2) => if (skipWs rest2).isEmpty then some xs else none
      | none => none
  | _ => none

-- ===========================================================================
-- Keyed-list primitives (SQL by-id lookup and INSERT OR REPLACE)
-- ===========================================================================

/-- `SELECT ... WHERE id = ?` on a table whose key is `idOf`. -/
def findById {α : Type} (idOf : α → String) (rows : List α) (i : String) : Option α :=
  rows.find? (fun r => idOf r == i)

/-- SQLite `INSERT OR REPLACE`: delete any row with the same key, then
append the new row. -/
def replaceById {α : Type} (idOf : α → String) (rows : List α) (r : α) : List α :=
  rows.filter (fun x => !(idOf x == idOf r)) ++ [r]

theorem findById_replaceById_self {α : Type} (idOf : α → String) (rows : List α) (r : α) :
    findById idOf (replaceById idOf rows r) (idOf r) = some r := by
  unfold findById replaceById
  rw [List.find?_append]
  have h1 : (List.find? (fun a => idOf a == idOf r) (rows.filter (fun x => !(idOf x == idOf r)))) = none := by
    rw [List.find?_eq_none]
    intro x hx
    have := List.of_mem_filter hx
    simpa using this
  rw [h1]
  simp [List.find?]

theorem findById_replaceById_ne {α : Type} (idOf : α → String) (rows : List α) (r : α)
    (j : String) (hj : j ≠ idOf r) :
    findById idOf (replaceById idOf rows r) j = findById idOf rows j := by
  unfold findById replaceById
  rw [List.find?_append]
  have h2 : (List.find? (fun a => idOf a == j) [r]) = none := by
    rw [List.find?_eq_none]
    intro x hx
    simp only [List.mem_singleton] at hx
    subst hx
    simpa using Ne.symm hj
  rw [h2, Option.or_none]
  induction rows with
  | nil => rfl
  | cons x xs ih =>
    by_cases hx : idOf x = idOf r
    · have hb : (idOf x == j) = false := by
        rw [hx]
        exact beq_false_of_ne (Ne.symm hj)
      rw [List.filter_cons_of_neg (by simp [hx]), List.find?_cons_of_neg _ (by simp [hb])]
      exact ih
    · rw [List.filter_cons_of_pos (by simp [hx])]
      by_cases hxj : idOf x = j
      · rw [List.find?_cons_of_pos _ (by simp [hxj]), List.find?_cons_of_pos _ (by simp [hxj])]
      · rw [List.find?_cons_of_neg _ (by simp [hxj]), List.find?_cons_of_neg _ (by simp [hxj])]
        exact ih

/-- If no row has the new key, `INSERT OR REPLACE` is a plain append. -/
theorem replaceById_eq_append {α : Type} (idOf : α → String) (rows : List α) (r : α)
    (h : ∀ x ∈ rows, idOf x ≠ idOf r) :
    replaceById idOf rows r = rows ++ [r] := by
  unfold replaceById
  congr 1
  refine List.filter_eq_self.mpr ?_
  intro x hx
  simpa using h x hx

-- ===========================================================================
-- Client data model (apps/desktop/src-tauri/src/models.rs and schema.sql)
-- ===========================================================================

/-- Note status enumeration (`models.rs`); the `status` column is constrained
to these three values by the schema CHECK. -/
inductive NoteStatus where
  | active
  | archived
  | trashed
deriving DecidableEq, Repr

/-- `NoteStatus::as_str`. -/
def NoteStatus.asStr : NoteStatus → String
  | .active => "active"
  | .archived => "archived"
  | .trashed => "trashed"

/-- `NoteStatus::from_str`; anything unrecognized falls back to `active`. -/
def NoteStatus.fromStr (s : String) : NoteStatus :=
  if s = "archived" then .archived
  else if s = "trashed" then .trashed
  else .active

/-- Domain-level note (`models.rs` `Note`): `tags` is the decoded list. -/
structure Note where
  id : String
  title : String
  content : String
  notebook_id : Option String
  tags : List String
  status : NoteStatus
  is_pinned : Bool
  revision : Int
  created_at : String
  updated_at : String
  deleted_at : Option String
deriving DecidableEq, Repr

/-- A row of the `notes` table: `tags` is the serialized JSON string stored
in the TEXT column. -/
structure NoteRow where
  id : String
  title : String
  content : String
  notebook_id : Option String
  tags : String
  status : NoteStatus
  is_pinned : Bool
  revision : Int
  created_at : String
  updated_at : String
  deleted_at : Option String
deriving DecidableEq, Repr

/-- Notebook (`models.rs` `Notebook`); rows of the `notebooks` table have
exactly the same fields. -/
structure Notebook where
  id : String
  name : String
  color : Option String
  icon : Option String
  parent_id : Option String
  revision : Int
  created_at : String
  updated_at : String
  deleted_at : Option String
deriving DecidableEq, Repr

/-- Tag (`models.rs` `Tag`); rows of the `tags` table have the same fields. -/
structure Tag where
  id : String
  name : String
  color : Option String
  revision : Int
  created_at : String
  updated_at : String
  deleted_at : Option String
deriving DecidableEq, Repr

/-- The single `sync_state` row (`id = 1`) of the client schema. -/
structure SyncRow where
  last_pull_revision : Int
  last_push_revision : Int
  last_synced_at : Option String
deriving DecidableEq, Repr

/-- Client database state: the three entity tables in rowid order plus the
`sync_state` singleton row (`none` models a database whose `sync_state` row
is missing; the schema seeds it with `(1, 0, 0)`). -/
structure ClientDb where
  notes : List NoteRow
  notebooks : List Notebook
  tags : List Tag
  sync_state : Option SyncRow
deriving DecidableEq, Repr

/-- Client error type (`error.rs` `AppError`), payloads carrying the message. -/
inductive AppError where
  | Database (msg : String)
  | NotFound (msg : String)
  | Validation (msg : String)
  | Conflict (msg : String)
  | Io (msg : String)
  | Sync (msg : String)
deriving DecidableEq, Repr

/-- Serialize a domain note into a `notes` table row, as every INSERT in the
client does: tags via `serde_json::to_string`, status via `as_str`,
`is_pinned` as 0/1. -/
def noteToRow (n : Note) : NoteRow :=
  { id := n.id, title := n.title, content := n.content, notebook_id := n.notebook_id,
    tags := jsonEncodeTags n.tags, status := n.status, is_pinned := n.is_pinned,
    revision := n.revision, created_at := n.created_at, updated_at := n.updated_at,
    deleted_at := n.deleted_at }

/-- Read a row back into a domain note (`row_to_note`): tags via
`serde_json::from_str(..).unwrap_or_default()`. -/
def rowToNote (r : NoteRow) : Note :=
  { id := r.id, title := r.title, content := r.content, notebook_id := r.notebook_id,
    tags := (parseTags r.tags).getD [], status := r.status, is_pinned := r.is_pinned,
    revision := r.revision, created_at := r.created_at, updated_at := r.updated_at,
    deleted_at := r.deleted_at }

-- ===========================================================================
-- Sync types and sync-state management (sync.rs)
-- ===========================================================================

/-- `sync.rs` `SyncConflict`. -/
structure SyncConflict where
  entity_type : String
  entity_id : String
  local_revision : Int
  remote_revision : Int
  resolution : String
deriving DecidableEq, Repr

/-- `sync.rs` `SyncStats` (i32 counters). -/
structure SyncStats where
  notes : Int
  notebooks : Int
  tags : Int
deriving DecidableEq, Repr

/-- `sync.rs` `SyncPayload`. -/
structure SyncPayload where
  notes : List Note
  notebooks : List Notebook
  tags : List Tag
  since_revision : Int
deriving DecidableEq, Repr

/-- `sync.rs` `LocalSyncState`. -/
structure LocalSyncState where
  last_pull_revision : Int
  last_push_revision : Int
  last_synced_at : Option String
  pending_changes : Int
deriving DecidableEq, Repr

/-- `COUNT(*)` of the rows satisfying `p`. -/
def countRows {α : Type} (p : α → Bool) (rows : List α) : Int :=
  ((rows.filter p).length : Int)

/-- `sync.rs` `get_sync_state`: read the `sync_state` row (defaulting to
zeros when absent) and derive `pending_changes` as the count of
non-tombstoned entities whose revision exceeds `last_push_revision`. -/
def get_sync_state (db : ClientDb) : LocalSyncState :=
  let base : LocalSyncState :=
    match db.sync_state with
    | some s =>
      { last_pull_revision := s.last_pull_revision,
        last_push_revision := s.last_push_revision,
        last_synced_at := s.last_synced_at, pending_changes := 0 }
    | none =>
      { last_pull_revision := 0, last_push_revision := 0,
        last_synced_at := none, pending_changes := 0 }
  let pending : Int :=
    countRows (fun n : NoteRow =>
        decide (base.last_push_revision < n.revision) && n.deleted_at.isNone) db.notes
      + countRows (fun n : Notebook =>
          decide (base.last_push_revision < n.revision) && n.deleted_at.isNone) db.notebooks
      + countRows (fun t : Tag =>
          decide (base.last_push_revision < t.revision) && t.deleted_at.isNone) db.tags
  { base with pending_changes := pending }

/-- `sync.rs` `update_sync_state`: UPDATE the `sync_state` row (a no-op when
the row is absent, as SQL UPDATE matches nothing). -/
def update_sync_state (db : ClientDb) (pull_revision push_revision : Option Int)
    (now : String) : ClientDb :=
  let db1 :=
    match pull_revision with
    | some rev =>
      { db with sync_state :=
          db.sync_state.map (fun s =>
            { s with last_pull_revision := rev, last_synced_at := some now }) }
    | none => db
  match push_revision with
  | some rev =>
    { db1 with sync_state :=
        db1.sync_state.map (fun s =>
          { s with last_push_revision := rev, last_synced_at := some now }) }
  | none => db1

/-- `sync.rs` `get_changes_since`: all rows (tombstoned included) of the
three kinds with `revision > since_revision`. -/
def get_changes_since (db : ClientDb) (since_revision : Int) : SyncPayload :=
  { notes := (db.notes.filter (fun n => decide (since_revision < n.revision))).map rowToNote,
    notebooks := db.notebooks.filter (fun n => decide (since_revision < n.revision)),
    tags := db.tags.filter (fun t => decide (since_revision < t.revision)),
    since_revision := since_revision }

-- ===========================================================================
-- LWW merge of remote changes (sync.rs merge_remote_changes)
-- ===========================================================================

/-- In-flight state of the `merge_remote_changes` loops: the client store
with every successfully executed statement committed (the function runs
outside a transaction), the counters and conflicts gathered so far, and
the first statement error, which aborts the remaining iterations (the
`?` on `conn.execute`). -/
structure MergeResult where
  db : ClientDb
  stats : SyncStats
  conflicts : List SyncConflict
  err : Option AppError
deriving DecidableEq, Repr

/-- Does the remote note's `notebook_id` satisfy the schema's
`REFERENCES notebooks(id)` constraint against the current store?  With
`PRAGMA foreign_keys = ON`, the `INSERT OR REPLACE` fails otherwise. -/
def noteFkOk (db : ClientDb) (r : Note) : Bool :=
  match r.notebook_id with
  | none => true
  | some p => (findById (fun x => x.id) db.notebooks p).isSome

/-- The `notebooks` table after `INSERT OR REPLACE` of a remote notebook:
when a row with the same id exists, REPLACE first deletes it, and that
implicit delete fires `parent_id REFERENCES notebooks(id) ON DELETE SET
NULL` on its children before the new row is appended; otherwise it is a
plain `replaceById`. -/
def notebookMergeRows (db : ClientDb) (r : Notebook) : List Notebook :=
  if (findById (fun x => x.id) db.notebooks r.id).isSome then
    ((db.notebooks.filter (fun x => !(x.id == r.id))).map (fun nb =>
      if nb.parent_id == some r.id then { nb with parent_id := none } else nb)) ++ [r]
  else replaceById (fun x => x.id) db.notebooks r

/-- The `notes` table after `INSERT OR REPLACE` of a remote notebook: the
implicit delete of the old row also fires
`notebook_id REFERENCES notebooks(id) ON DELETE SET NULL` on notes. -/
def notebookMergeNotes (db : ClientDb) (r : Notebook) : List NoteRow :=
  if (findById (fun x => x.id) db.notebooks r.id).isSome then
    db.notes.map (fun n =>
      if n.notebook_id == some r.id then { n with notebook_id := none } else n)
  else db.notes

/-- Does the remote notebook's `parent_id` resolve in the post-statement
`notebooks` table?  (SQLite checks FKs against the state after the
statement's deletes and insert, so a self-parent also passes.) -/
def notebookFkOk (db : ClientDb) (r : Notebook) : Bool :=
  match r.parent_id with
  | none => true
  | some p => (findById (fun x => x.id) (notebookMergeRows db r) p).isSome

/-- `INSERT OR REPLACE` into the client `tags` table: the implicit delete
removes both the row with the same id and any row with the same UNIQUE
`name`, then appends the new row. -/
def replaceTagRow (rows : List Tag) (r : Tag) : List Tag :=
  (rows.filter (fun x => !(x.id == r.id) && !(x.name == r.name))) ++ [r]

/-- The `should_apply` branch of the note merge loop: the
`INSERT OR REPLACE` commits and the counter is bumped when the note
foreign key resolves; otherwise the statement fails and the propagated
`rusqlite` error aborts the merge. -/
def mergeNoteApply (acc : MergeResult) (r : Note) : MergeResult :=
  if noteFkOk acc.db r then
    let notes1 := replaceById (fun n => n.id) acc.db.notes (noteToRow r)
    { acc with db := { acc.db with notes := notes1 },
               stats := { acc.stats with notes := acc.stats.notes + 1 } }
  else { acc with err := some (AppError.Database "FOREIGN KEY constraint failed") }

/-- Loop body of `merge_remote_changes` for one remote note: LWW decision
against the local row, then `INSERT OR REPLACE` on apply (which can fail,
see `mergeNoteApply`); a `local_wins` conflict is recorded when the local
revision is higher. -/
def mergeNoteStep (acc : MergeResult) (r : Note) : MergeResult :=
  if acc.err.isSome then acc else
  let apply : MergeResult := mergeNoteApply acc r
  match findById (fun n => n.id) acc.db.notes r.id with
  | none => apply
  | some l =>
    if decide (l.revision < r.revision) then apply
    else if r.revision = l.revision then
      if strLtB l.updated_at r.updated_at then apply else acc
    else
      { acc with conflicts := acc.conflicts ++
          [{ entity_type := "note", entity_id := r.id, local_revision := l.revision,
             remote_revision := r.revision, resolution := "local_wins" }] }

/-- The `should_apply` branch of the notebook merge loop: the REPLACE
fires the ON DELETE SET NULL side effects of its implicit delete, and
fails when the notebook's parent does not resolve. -/
def mergeNotebookApply (acc : MergeResult) (r : Notebook) : MergeResult :=
  if notebookFkOk acc.db r then
    let db1 := { acc.db with notebooks := notebookMergeRows acc.db r,
                             notes := notebookMergeNotes acc.db r }
    { acc with db := db1,
               stats := { acc.stats with notebooks := acc.stats.notebooks + 1 } }
  else { acc with err := some (AppError.Database "FOREIGN KEY constraint failed") }

/-- Loop body of `merge_remote_changes` for one remote notebook: same LWW
decision, applying through `mergeNotebookApply`. -/
def mergeNotebookStep (acc : MergeResult) (r : Notebook) : MergeResult :=
  if acc.err.isSome then acc else
  let apply : MergeResult := mergeNotebookApply acc r
  match findById (fun n => n.id) acc.db.notebooks r.id with
  | none => apply
  | some l =>
    if decide (l.revision < r.revision) then apply
    else if r.revision = l.revision then
      if strLtB l.updated_at r.updated_at then apply else acc
    else
      { acc with conflicts := acc.conflicts ++
          [{ entity_type := "notebook", entity_id := r.id, local_revision := l.revision,
             remote_revision := r.revision, resolution := "local_wins" }] }

/-- The apply branch of the tag merge loop: the REPLACE also deletes any
stored tag carrying the same UNIQUE name under a different id, and never
fails (the client `tags` table has no foreign keys). -/
def mergeTagApply (acc : MergeResult) (r : Tag) : MergeResult :=
  { acc with db := { acc.db with tags := replaceTagRow acc.db.tags r },
             stats := { acc.stats with tags := acc.stats.tags + 1 } }

/-- Loop body of `merge_remote_changes` for one remote tag: same LWW
decision, applying through `mergeTagApply`. -/
def mergeTagStep (acc : MergeResult) (r : Tag) : MergeResult :=
  if acc.err.isSome then acc else
  let apply : MergeResult := mergeTagApply acc r
  match findById (fun t => t.id) acc.db.tags r.id with
  | none => apply
  | some l =>
    if decide (l.revision < r.revision) then apply
    else if r.revision = l.revision then
      if strLtB l.updated_at r.updated_at then apply else acc
    else
      { acc with conflicts := acc.conflicts ++
          [{ entity_type := "tag", entity_id := r.id, local_revision := l.revision,
             remote_revision := r.revision, resolution := "local_wins" }] }

/-- `sync.rs` `merge_remote_changes`: process all remote notes, then
notebooks, then tags, accumulating stats and conflicts; the first failing
statement carries its error out through `?`, leaving the earlier applied
rows committed. -/
def merge_remote_changes (db : ClientDb) (remote : SyncPayload) : MergeResult :=
  let acc1 := remote.notes.foldl mergeNoteStep ⟨db, ⟨0, 0, 0⟩, [], none⟩
  let acc2 := remote.notebooks.foldl mergeNotebookStep acc1
  remote.tags.foldl mergeTagStep acc2

/-- `sync.rs` `apply_remote_changes`: merge, then — only when the merge
returned without error — advance `last_pull_revision` to
`max(old, max-per-kind applied count)` when any entity was applied.  On a
merge error the cursor update is never reached, but the rows the merge
already applied stay committed. -/
def apply_remote_changes (db : ClientDb) (payload : SyncPayload) (now : String) :
    ClientDb × Except AppError (SyncStats × List SyncConflict) :=
  let m := merge_remote_changes db payload
  match m.err with
  | some e => (m.db, .error e)
  | none =>
    let max_revision : Int := max (max m.stats.notes m.stats.notebooks) m.stats.tags
    if 0 < max_revision then
      let st := get_sync_state m.db
      (update_sync_state m.db (some (max st.last_pull_revision max_revision)) none now,
       .ok (m.stats, m.conflicts))
    else
      (m.db, .ok (m.stats, m.conflicts))

-- ===========================================================================
-- Delete commands (commands/notes.rs, commands/notebooks.rs, commands/tags.rs)
-- ===========================================================================

/-- `commands/notes.rs` `delete_note`: hard delete removes the row, soft
delete stamps `deleted_at`, sets status `trashed` and bumps the revision;
neither variant checks that the id exists. -/
def delete_note (db : ClientDb) (i : String) (hard : Option Bool) (now : String) :
    Except AppError ClientDb :=
  if hard.getD false then
    .ok { db with notes := db.notes.filter (fun n => !(n.id == i)) }
  else
    .ok { db with notes :=
            db.notes.map (fun n =>
              if n.id == i then
                { n with deleted_at := some now, status := .trashed,
                         revision := n.revision + 1, updated_at := now }
              else n) }

/-- `commands/notebooks.rs` `delete_notebook`: both variants first clear
`notebook_id` on referring notes (bumping their revisions); the hard
variant then deletes the notebook row, upon which the schema's
`parent_id REFERENCES notebooks(id) ON DELETE SET NULL` action (with
`PRAGMA foreign_keys = ON` set in db.rs) nulls the `parent_id` of child
notebooks; the soft variant stamps `deleted_at` on the notebook row.
No variant checks that the id exists. -/
def delete_notebook (db : ClientDb) (i : String) (hard : Option Bool) (now : String) :
    Except AppError ClientDb :=
  let notes1 := db.notes.map (fun n =>
    if n.notebook_id == some i then
      { n with notebook_id := none, revision := n.revision + 1, updated_at := now }
    else n)
  if hard.getD false then
    let notebooks1 := (db.notebooks.filter (fun nb => !(nb.id == i))).map (fun nb =>
      if nb.parent_id == some i then { nb with parent_id := none } else nb)
    .ok { db with notes := notes1, notebooks := notebooks1 }
  else
    let notebooks1 := db.notebooks.map (fun nb =>
      if nb.id == i then
        { nb with deleted_at := some now, revision := nb.revision + 1, updated_at := now }
      else nb)
    .ok { db with notes := notes1, notebooks := notebooks1 }

/-- `commands/tags.rs` `delete_tag`: looks up the tag (NotFound when
absent), then runs
`UPDATE notes SET tags = REPLACE(tags, '"name"', ''), revision = revision + 1, updated_at = ...
 WHERE tags LIKE '%"name"%'`,
and finally hard-deletes or soft-deletes the tag row. -/
def delete_tag (db : ClientDb) (i : String) (hard : Option Bool) (now : String) :
    Except AppError ClientDb :=
  match findById (fun t => t.id) db.tags i with
  | none => .error (AppError.NotFound ("Tag " ++ i ++ " not found"))
  | some existing =>
    let tag_pattern := "\"" ++ existing.name ++ "\""
    let notes1 := db.notes.map (fun n =>
      if sqlLike n.tags ("%" ++ tag_pattern ++ "%") then
        { n with tags := sqlReplace n.tags tag_pattern "",
                 revision := n.revision + 1, updated_at := now }
      else n)
    if hard.getD false then
      .ok { db with notes := notes1, tags := db.tags.filter (fun t => !(t.id == i)) }
    else
      let tags1 := db.tags.map (fun t =>
        if t.id == i then
          { t with deleted_at := some now, revision := t.revision + 1, updated_at := now }
        else t)
      .ok { db with notes := notes1, tags := tags1 }

-- ===========================================================================
-- Backup codec (export.rs)
-- ===========================================================================

/-- `export.rs` `ExportData`, the content of the archive's `data.json`. -/
structure ExportData where
  version : String
  exported_at : String
  notes : List Note
  notebooks : List Notebook
  tags : List Tag
deriving DecidableEq, Repr

/-- `export.rs` `ExportStats`. -/
structure ExportStats where
  notes : Int
  notebooks : Int
  tags : Int
  file_path : String
deriving DecidableEq, Repr

/-- `export.rs` `ImportStats`. -/
structure ImportStats where
  notes_imported : Int
  notebooks_imported : Int
  tags_imported : Int
  notes_skipped : Int
  notebooks_skipped : Int
  tags_skipped : Int
deriving DecidableEq, Repr

/-- `export.rs` `get_export_data`: dump all rows of the three kinds
(tombstoned included), decoding note rows with `row_to_note`. -/
def get_export_data (db : ClientDb) (now : String) : ExportData :=
  { version := "1.0", exported_at := now,
    notes := db.notes.map rowToNote,
    notebooks := db.notebooks,
    tags := db.tags }

/-- `export.rs` `export_to_zip`.  The byte-level codec (serde_json printing
of `ExportData` into the single `data.json` entry of the ZIP) is modelled
as the identity on `ExportData`: serialization followed by
deserialization of these derive-serde structures is the identity, so the
archive is represented by its decoded content. -/
def export_to_zip (db : ClientDb) (now : String) (path : String) :
    ExportData × ExportStats :=
  let data := get_export_data db now
  (data,
   { notes := (data.notes.length : Int), notebooks := (data.notebooks.length : Int),
     tags := (data.tags.length : Int), file_path := path })

/-- One iteration of the notebook import loop of `import_from_zip`: skip
when the id exists and overwrite is off, otherwise `INSERT OR REPLACE`,
which fails with a foreign-key error when a non-null `parent_id` does not
resolve in the resulting table (schema `REFERENCES notebooks(id)` with
`PRAGMA foreign_keys = ON`).  A failed statement aborts the import. -/
def importNotebookStep (overwrite : Bool) (acc : Except AppError (ClientDb × ImportStats))
    (nb : Notebook) : Except AppError (ClientDb × ImportStats) :=
  match acc with
  | .error e => .error e
  | .ok (db, stats) =>
    if (findById (fun x => x.id) db.notebooks nb.id).isSome && !overwrite then
      .ok (db, { stats with notebooks_skipped := stats.notebooks_skipped + 1 })
    else
      let notebooks1 := replaceById (fun x => x.id) db.notebooks nb
      let fkOk : Bool :=
        match nb.parent_id with
        | none => true
        | some p => (findById (fun x => x.id) notebooks1 p).isSome
      if fkOk then
        .ok ({ db with notebooks := notebooks1 },
             { stats with notebooks_imported := stats.notebooks_imported + 1 })
      else
        .error (AppError.Database "FOREIGN KEY constraint failed")

/-- One iteration of the tag import loop of `import_from_zip`. -/
def importTagStep (overwrite : Bool) (acc : Except AppError (ClientDb × ImportStats))
    (t : Tag) : Except AppError (ClientDb × ImportStats) :=
  match acc with
  | .error e => .error e
  | .ok (db, stats) =>
    if (findById (fun x => x.id) db.tags t.id).isSome && !overwrite then
      .ok (db, { stats with tags_skipped := stats.tags_skipped + 1 })
    else
      .ok ({ db with tags := replaceById (fun x => x.id) db.tags t },
           { stats with tags_imported := stats.tags_imported + 1 })

/-- One iteration of the note import loop of `import_from_zip`: the note's
tags are re-serialized with `serde_json::to_string`; a non-null
`notebook_id` must resolve against the notebooks table. -/
def importNoteStep (overwrite : Bool) (acc : Except AppError (ClientDb × ImportStats))
    (n : Note) : Except AppError (ClientDb × ImportStats) :=
  match acc with
  | .error e => .error e
  | .ok (db, stats) =>
    if (findById (fun x => x.id) db.notes n.id).isSome && !overwrite then
      .ok (db, { stats with notes_skipped := stats.notes_skipped + 1 })
    else
      let fkOk : Bool :=
        match n.notebook_id with
        | none => true
        | some p => (findById (fun x => x.id) db.notebooks p).isSome
      if fkOk then
        .ok ({ db with notes := replaceById (fun x => x.id) db.notes (noteToRow n) },
             { stats with notes_imported := stats.notes_imported + 1 })
      else
        .error (AppError.Database "FOREIGN KEY constraint failed")

/-- `export.rs` `import_from_zip` (archive content abstracted as
`ExportData`, see `export_to_zip`): import notebooks first, then tags,
then notes. -/
def import_from_zip (db : ClientDb) (data : ExportData) (overwrite : Bool) :
    Except AppError (ClientDb × ImportStats) :=
  let stats0 : ImportStats := ⟨0, 0, 0, 0, 0, 0⟩
  let acc1 := data.notebooks.foldl (importNotebookStep overwrite) (.ok (db, stats0))
  let acc2 := data.tags.foldl (importTagStep overwrite) acc1
  data.notes.foldl (importNoteStep overwrite) acc2

/-- A freshly created client database: empty tables and the seeded
`sync_state` row `(1, 0, 0)`. -/
def emptyClientDb : ClientDb :=
  { notes := [], notebooks := [], tags := [], sync_state := some ⟨0, 0, none⟩ }

-- ===========================================================================
-- Server data model (apps/server/src/models.rs, db.rs)
-- ===========================================================================

/-- Server-side note (`apps/server/src/models.rs` `Note`; the client mirrors
it as `sync.rs` `ServerNote`): tags as a JSON string, soft delete as the
`is_deleted` flag. -/
structure SNote where
  id : String
  title : String
  content : String
  notebook_id : Option String
  tags : String
  status : String
  created_at : String
  updated_at : String
  revision : Int
  is_deleted : Bool
deriving DecidableEq, Repr

/-- Server-side notebook (mirrored by `sync.rs` `ServerNotebook`): no icon
field. -/
structure SNotebook where
  id : String
  name : String
  color : Option String
  parent_id : Option String
  created_at : String
  updated_at : String
  revision : Int
  is_deleted : Bool
deriving DecidableEq, Repr

/-- Server-side tag (mirrored by `sync.rs` `ServerTag`). -/
structure STag where
  id : String
  name : String
  color : Option String
  created_at : String
  updated_at : String
  revision : Int
  is_deleted : Bool
deriving DecidableEq, Repr

/-- Server database: three tables in rowid order plus the `sync_state` row
holding `global_revision` (seeded with 0). -/
structure ServerDb where
  notes : List SNote
  notebooks : List SNotebook
  tags : List STag
  global_revision : Int
deriving DecidableEq, Repr

/-- A freshly initialized server database. -/
def serverInit : ServerDb := { notes := [], notebooks := [], tags := [], global_revision := 0 }

/-- `server/db.rs` `increment_global_revision`. -/
def increment_global_revision (g : Int) : Int := g + 1

/-- The `ON CONFLICT(id) DO UPDATE` upsert of `server/db.rs`: a fresh row is
inserted with the new revision; an existing row has every attribute except
`created_at` overwritten from the incoming entity and its revision set to
the new revision. -/
def upsertSqlNote (rows : List SNote) (n : SNote) (newRev : Int) : List SNote :=
  if rows.any (fun l => l.id == n.id) then
    rows.map (fun l =>
      if l.id == n.id then
        { l with title := n.title, content := n.content, notebook_id := n.notebook_id,
                 tags := n.tags, status := n.status, updated_at := n.updated_at,
                 revision := newRev, is_deleted := n.is_deleted }
      else l)
  else rows ++ [{ n with revision := newRev }]

/-- Notebook version of the `ON CONFLICT(id) DO UPDATE` upsert. -/
def upsertSqlNotebook (rows : List SNotebook) (n : SNotebook) (newRev : Int) : List SNotebook :=
  if rows.any (fun l => l.id == n.id) then
    rows.map (fun l =>
      if l.id == n.id then
        { l with name := n.name, color := n.color, parent_id := n.parent_id,
                 updated_at := n.updated_at, revision := newRev, is_deleted := n.is_deleted }
      else l)
  else rows ++ [{ n with revision := newRev }]

/-- Tag version of the `ON CONFLICT(id) DO UPDATE` upsert, on its success
path only: the server `tags` table also carries `name TEXT NOT NULL
UNIQUE`, and `upsert_tag` below applies this update only when no stored
tag under a different id carries the incoming name — otherwise the whole
statement fails and the table is untouched. -/
def upsertSqlTag (rows : List STag) (t : STag) (newRev : Int) : List STag :=
  if rows.any (fun l => l.id == t.id) then
    rows.map (fun l =>
      if l.id == t.id then
        { l with name := t.name, color := t.color, updated_at := t.updated_at,
                 revision := newRev, is_deleted := t.is_deleted }
      else l)
  else rows ++ [{ t with revision := newRev }]

/-- `server/db.rs` `upsert_note`: reports a conflict when the stored
revision is `>=` the incoming one; applies the incoming entity (stamping
the next global revision) whenever the incoming revision is `>=` the
stored one or the id is new. -/
def upsert_note (db : ServerDb) (n : SNote) : ServerDb × Bool × Int :=
  let existing := (findById (fun l => l.id) db.notes n.id).map (fun l => l.revision)
  let has_conflict :=
    match existing with
    | some r => decide (n.revision ≤ r)
    | none => false
  match existing with
  | none =>
    let new_rev := increment_global_revision db.global_revision
    ({ db with notes := upsertSqlNote db.notes n new_rev, global_revision := new_rev },
     has_conflict, new_rev)
  | some e =>
    if decide (e ≤ n.revision) then
      let new_rev := increment_global_revision db.global_revision
      ({ db with notes := upsertSqlNote db.notes n new_rev, global_revision := new_rev },
       has_conflict, new_rev)
    else
      (db, true, e)

/-- `server/db.rs` `upsert_notebook`. -/
def upsert_notebook (db : ServerDb) (n : SNotebook) : ServerDb × Bool × Int :=
  let existing := (findById (fun l => l.id) db.notebooks n.id).map (fun l => l.revision)
  let has_conflict :=
    match existing with
    | some r => decide (n.revision ≤ r)
    | none => false
  match existing with
  | none =>
    let new_rev := increment_global_revision db.global_revision
    ({ db with notebooks := upsertSqlNotebook db.notebooks n new_rev,
               global_revision := new_rev },
     has_conflict, new_rev)
  | some e =>
    if decide (e ≤ n.revision) then
      let new_rev := increment_global_revision db.global_revision
      ({ db with notebooks := upsertSqlNotebook db.notebooks n new_rev,
                 global_revision := new_rev },
       has_conflict, new_rev)
    else
      (db, true, e)

/-- `server/db.rs` `upsert_tag`: same LWW acceptance as the other upserts,
but the server `tags` table declares `name TEXT NOT NULL UNIQUE`, so the
`ON CONFLICT(id) DO UPDATE` statement fails with
`UNIQUE constraint failed: tags.name` whenever the incoming name equals
the name of a stored tag with a different id (on both the fresh-insert
and the update path).  `increment_global_revision` is a separate
statement already committed when the insert fails, so the global revision
stays bumped on the error path.  (The server's `error` module is absent
from the source tree; the propagated `rusqlite` statement error is
modelled with the `Database` variant.) -/
def upsert_tag (db : ServerDb) (t : STag) : ServerDb × Except AppError (Bool × Int) :=
  let existing := (findById (fun l => l.id) db.tags t.id).map (fun l => l.revision)
  let has_conflict :=
    match existing with
    | some r => decide (t.revision ≤ r)
    | none => false
  let nameClash := db.tags.any (fun x => x.name == t.name && !(x.id == t.id))
  match existing with
  | none =>
    let new_rev := increment_global_revision db.global_revision
    if nameClash then
      ({ db with global_revision := new_rev },
       .error (AppError.Database "UNIQUE constraint failed: tags.name"))
    else
      ({ db with tags := upsertSqlTag db.tags t new_rev, global_revision := new_rev },
       .ok (has_conflict, new_rev))
  | some e =>
    if decide (e ≤ t.revision) then
      let new_rev := increment_global_revision db.global_revision
      if nameClash then
        ({ db with global_revision := new_rev },
         .error (AppError.Database "UNIQUE constraint failed: tags.name"))
      else
        ({ db with tags := upsertSqlTag db.tags t new_rev, global_revision := new_rev },
         .ok (has_conflict, new_rev))
    else
      (db, .ok (true, e))

/-- `server/db.rs` `get_notes_since`: all rows with `revision > cursor`. -/
def get_notes_since (db : ServerDb) (revision : Int) : List SNote :=
  db.notes.filter (fun n => decide (revision < n.revision))

/-- `server/db.rs` `get_notebooks_since`. -/
def get_notebooks_since (db : ServerDb) (revision : Int) : List SNotebook :=
  db.notebooks.filter (fun n => decide (revision < n.revision))

/-- `server/db.rs` `get_tags_since`. -/
def get_tags_since (db : ServerDb) (revision : Int) : List STag :=
  db.tags.filter (fun t => decide (revision < t.revision))

-- ===========================================================================
-- Server handlers (apps/server/src/handlers.rs)
-- ===========================================================================

/-- `server/models.rs` `PullRequest`. -/
structure PullRequest where
  device_id : String
  last_sync_revision : Int
deriving DecidableEq, Repr

/-- `server/models.rs` `PullResponse`. -/
structure PullResponse where
  notes : List SNote
  notebooks : List SNotebook
  tags : List STag
  server_revision : Int
deriving DecidableEq, Repr

/-- `server/models.rs` `Conflict`. -/
structure Conflict where
  entity_type : String
  entity_id : String
  local_revision : Int
  server_revision : Int
  resolution : String
deriving DecidableEq, Repr

/-- `server/models.rs` `PushResponse`. -/
structure PushResponse where
  accepted : Int
  conflicts : List Conflict
  server_revision : Int
deriving DecidableEq, Repr

/-- `handlers.rs` `pull`: the rows newer than the cursor plus the current
global revision. -/
def pull (db : ServerDb) (req : PullRequest) : PullResponse :=
  { notes := get_notes_since db req.last_sync_revision,
    notebooks := get_notebooks_since db req.last_sync_revision,
    tags := get_tags_since db req.last_sync_revision,
    server_revision := db.global_revision }

/-- One iteration of the note loop of `handlers.rs` `push`: a conflicting
upsert is reported with resolution `server_wins`, otherwise the accepted
count is incremented. -/
def pushNoteStep (acc : ServerDb × List Conflict × Int) (n : SNote) :
    ServerDb × List Conflict × Int :=
  let (db, conflicts, accepted) := acc
  let r := upsert_note db n
  if r.2.1 then
    (r.1, conflicts ++
      [{ entity_type := "note", entity_id := n.id, local_revision := n.revision,
         server_revision := r.2.2, resolution := "server_wins" }], accepted)
  else
    (r.1, conflicts, accepted + 1)

/-- One iteration of the notebook loop of `handlers.rs` `push`. -/
def pushNotebookStep (acc : ServerDb × List Conflict × Int) (n : SNotebook) :
    ServerDb × List Conflict × Int :=
  let (db, conflicts, accepted) := acc
  let r := upsert_notebook db n
  if r.2.1 then
    (r.1, conflicts ++
      [{ entity_type := "notebook", entity_id := n.id, local_revision := n.revision,
         server_revision := r.2.2, resolution := "server_wins" }], accepted)
  else
    (r.1, conflicts, accepted + 1)

/-- One iteration of the tag loop of `handlers.rs` `push`: a failing
`upsert_tag` statement aborts the handler through `?`, with the upserts
already performed left committed. -/
def pushTagStep (acc : ServerDb × Except AppError (List Conflict × Int)) (t : STag) :
    ServerDb × Except AppError (List Conflict × Int) :=
  match acc.2 with
  | .error e => (acc.1, .error e)
  | .ok ca =>
    let r := upsert_tag acc.1 t
    match r.2 with
    | .error e => (r.1, .error e)
    | .ok res =>
      if res.1 then
        (r.1, .ok (ca.1 ++
          [{ entity_type := "tag", entity_id := t.id, local_revision := t.revision,
             server_revision := res.2, resolution := "server_wins" }], ca.2))
      else
        (r.1, .ok (ca.1, ca.2 + 1))

/-- `handlers.rs` `push`: upsert notes, notebooks, then tags, collecting
conflicts and the accepted count, and answer with the final global
revision; a tag upsert error makes the handler answer that error
instead. -/
def push (db : ServerDb) (notes : List SNote) (notebooks : List SNotebook)
    (tags : List STag) : ServerDb × Except AppError PushResponse :=
  let acc1 := notes.foldl pushNoteStep (db, [], 0)
  let acc2 := notebooks.foldl pushNotebookStep acc1
  let acc3 := tags.foldl pushTagStep (acc2.1, .ok (acc2.2.1, acc2.2.2))
  match acc3.2 with
  | .error e => (acc3.1, .error e)
  | .ok ca =>
    (acc3.1, .ok { accepted := ca.2, conflicts := ca.1,
                   server_revision := acc3.1.global_revision })

/-- Server states reachable through the upsert operations, the only writers
of the server store. -/
inductive ServerReachable : ServerDb → Prop where
  | init : ServerReachable serverInit
  | upNote {db : ServerDb} (h : ServerReachable db) (n : SNote) :
      ServerReachable (upsert_note db n).1
  | upNotebook {db : ServerDb} (h : ServerReachable db) (n : SNotebook) :
      ServerReachable (upsert_notebook db n).1
  | upTag {db : ServerDb} (h : ServerReachable db) (t : STag) :
      ServerReachable (upsert_tag db t).1

-- ===========================================================================
-- Wire conversions on the client (sync.rs server_to_note and friends)
-- ===========================================================================

/-- `sync.rs` `server_to_note`: the wire format has no `is_pinned`, so the
converted note always has `is_pinned = false`; the tombstone timestamp is
taken from `updated_at` when `is_deleted` is set. -/
def server_to_note (s : SNote) : Note :=
  { id := s.id, title := s.title, content := s.content, notebook_id := s.notebook_id,
    tags := (parseTags s.tags).getD [], status := NoteStatus.fromStr s.status,
    is_pinned := false, revision := s.revision, created_at := s.created_at,
    updated_at := s.updated_at,
    deleted_at := if s.is_deleted then some s.updated_at else none }

/-- `sync.rs` `server_to_notebook`: the wire format has no `icon`, so the
converted notebook always has `icon = none`. -/
def server_to_notebook (s : SNotebook) : Notebook :=
  { id := s.id, name := s.name, color := s.color, icon := none,
    parent_id := s.parent_id, revision := s.revision, created_at := s.created_at,
    updated_at := s.updated_at,
    deleted_at := if s.is_deleted then some s.updated_at else none }

/-- `sync.rs` `server_to_tag`. -/
def server_to_tag (s : STag) : Tag :=
  { id := s.id, name := s.name, color := s.color, revision := s.revision,
    created_at := s.created_at, updated_at := s.updated_at,
    deleted_at := if s.is_deleted then some s.updated_at else none }

-- ===========================================================================
-- Derived predicates
-- ===========================================================================

/-- Modelled from the spec: the total number of entities of all three kinds,
tombstoned rows included, whose revision exceeds the given cursor — the
reading of `pending_changes` asserted by the specification. -/
def pendingChangesSpec (db : ClientDb) (last_push_revision : Int) : Int :=
  countRows (fun n : NoteRow => decide (last_push_revision < n.revision)) db.notes
    + countRows (fun n : Notebook => decide (last_push_revision < n.revision)) db.notebooks
    + countRows (fun t : Tag => decide (last_push_revision < t.revision)) db.tags

/-- Every non-null `parent_id` in the notebooks table references a notebook
in the table. -/
def notebookRefsOkB (nbs : List Notebook) : Bool :=
  nbs.all (fun nb =>
    match nb.parent_id with
    | none => true
    | some p => nbs.any (fun x => x.id == p))

/-- Each notebook's parent, when non-null, occurs among the notebooks
already present plus the earlier elements of the list (including the
notebook itself, matching the per-statement foreign-key check). -/
def parentClosed (present : List Notebook) : List Notebook → Bool
  | [] => true
  | nb :: rest =>
    (match nb.parent_id with
     | none => true
     | some p => (present ++ [nb]).any (fun x => x.id == p))
      && parentClosed (present ++ [nb]) rest

-- ===========================================================================
-- Concrete states used by the witnesses and counterexamples
-- ===========================================================================

/-- A stored local note row, revision 1. -/
def exNoteRowA : NoteRow :=
  { id := "n1", title := "Old", content := "old body", notebook_id := none,
    tags := "[]", status := .active, is_pinned := false, revision := 1,
    created_at := "2024-01-01T00:00:00Z", updated_at := "2024-01-02T00:00:00Z",
    deleted_at := none }

/-- A remote note for the same id, revision 2. -/
def exNoteR : Note :=
  { id := "n1", title := "New", content := "new body", notebook_id := none,
    tags := ["a"], status := .archived, is_pinned := true, revision := 2,
    created_at := "2024-01-01T00:00:00Z", updated_at := "2024-01-03T00:00:00Z",
    deleted_at := none }

/-- A note stored on the server, revision 1. -/
def exSNoteStored : SNote :=
  { id := "n1", title := "Original", content := "server body", notebook_id := none,
    tags := "[]", status := "active", created_at := "2024-01-01T00:00:00Z",
    updated_at := "2024-01-02T00:00:00Z", revision := 1, is_deleted := false }

/-- An incoming pushed note with the same id and the same revision but a
different title. -/
def exSNoteIncoming : SNote :=
  { id := "n1", title := "Changed", content := "client body", notebook_id := none,
    tags := "[]", status := "active", created_at := "2024-01-01T00:00:00Z",
    updated_at := "2024-01-02T00:00:00Z", revision := 1, is_deleted := false }

/-- A server database holding `exSNoteStored` at global revision 5. -/
def exServerDb : ServerDb :=
  { notes := [exSNoteStored], notebooks := [], tags := [], global_revision := 5 }

/-- A client database whose only entity is a tombstoned note with
revision 5, with both cursors at 0. -/
def exNoteRowTomb : NoteRow :=
  { exNoteRowA with revision := 5, status := .trashed,
                    deleted_at := some "2024-01-04T00:00:00Z" }

/-- See above: the C3 database. -/
def exDbC3 : ClientDb :=
  { notes := [exNoteRowTomb], notebooks := [], tags := [],
    sync_state := some ⟨0, 0, none⟩ }

/-- The tag named `a`. -/
def exTagA : Tag :=
  { id := "t1", name := "a", color := none, revision := 1,
    created_at := "2024-01-01T00:00:00Z", updated_at := "2024-01-01T00:00:00Z",
    deleted_at := none }

/-- A note row whose serialized tag list is `["a","b"]`. -/
def exNoteRowTags : NoteRow :=
  { exNoteRowA with tags := "[\"a\",\"b\"]" }

/-- A client database with one note tagged `a` and `b` and the tag `a`. -/
def exDbC4 : ClientDb :=
  { notes := [exNoteRowTags], notebooks := [], tags := [exTagA],
    sync_state := some ⟨0, 0, none⟩ }

/-- A parent notebook. -/
def exNbP : Notebook :=
  { id := "P", name := "Parent", color := none, icon := none, parent_id := none,
    revision := 1, created_at := "2024-01-01T00:00:00Z",
    updated_at := "2024-01-01T00:00:00Z", deleted_at := none }

/-- A child notebook of `exNbP`. -/
def exNbC : Notebook :=
  { id := "C", name := "Child", color := none, icon := none, parent_id := some "P",
    revision := 1, created_at := "2024-01-01T00:00:00Z",
    updated_at := "2024-01-01T00:00:00Z", deleted_at := none }

/-- A client database with the parent/child notebook pair. -/
def exDbC5 : ClientDb :=
  { notes := [], notebooks := [exNbP, exNbC], tags := [],
    sync_state := some ⟨0, 0, none⟩ }

/-- A well-formed client database exercising the backup round trip: a
notebook hierarchy, a tag, a live note in the parent notebook with a
canonically serialized tag list, and a tombstoned note. -/
def exNoteRowC7a : NoteRow :=
  { exNoteRowA with notebook_id := some "P", tags := "[\"a\"]" }

/-- The tombstoned note of `exDbC7`. -/
def exNoteRowC7b : NoteRow :=
  { exNoteRowA with id := "n2", status := .trashed, revision := 3,
                    deleted_at := some "2024-01-05T00:00:00Z" }

/-- See above: the C7 round-trip database. -/
def exDbC7 : ClientDb :=
  { notes := [exNoteRowC7a, exNoteRowC7b], notebooks := [exNbP, exNbC],
    tags := [exTagA], sync_state := some ⟨0, 0, none⟩ }

/-- A client database whose note row carries the malformed serialized tag
list `[,"b"]` (exactly what `delete_tag` leaves behind of `["a","b"]`). -/
def exDbC7bad : ClientDb :=
  { notes := [{ exNoteRowA with tags := "[,\"b\"]" }],
    notebooks := [], tags := [], sync_state := some ⟨0, 0, none⟩ }

/-- A wire note as received from the server in a pull. -/
def exSNoteWire : SNote :=
  { id := "n9", title := "Wire", content := "wire body", notebook_id := none,
    tags := "[\"x\"]", status := "active", created_at := "2024-01-01T00:00:00Z",
    updated_at := "2024-01-02T00:00:00Z", revision := 7, is_deleted := false }

/-- A wire notebook as received from the server in a pull. -/
def exSNotebookWire : SNotebook :=
  { id := "b9", name := "WireBook", color := some "#fff", parent_id := none,
    created_at := "2024-01-01T00:00:00Z", updated_at := "2024-01-02T00:00:00Z",
    revision := 7, is_deleted := false }

/-- A payload containing a single fresh remote note. -/
def exPayloadC10 : SyncPayload :=
  { notes := [exNoteR], notebooks := [], tags := [], since_revision := 0 }

/-- A remote note referencing a notebook that the client does not have:
its `INSERT OR REPLACE` fails the foreign-key check. -/
def exNoteBad : Note :=
  { exNoteR with id := "n2", notebook_id := some "missing" }

/-- A payload whose first note applies cleanly and whose second note aborts
the merge with a foreign-key error. -/
def exPayloadC10err : SyncPayload :=
  { notes := [exNoteR, exNoteBad], notebooks := [], tags := [], since_revision := 0 }

/-- A merge accumulator holding the local store with `exNoteRowA`, fresh
counters and no error. -/
def exAccC1 : MergeResult :=
  ⟨{ emptyClientDb with notes := [exNoteRowA] }, ⟨0, 0, 0⟩, [], none⟩

/-- A merge accumulator whose local store pins its copy of the note that
`exSNoteWire` will overwrite. -/
def exAccC9 : MergeResult :=
  ⟨{ emptyClientDb with notes := [{ exNoteRowA with id := "n9", is_pinned := true }] },
   ⟨0, 0, 0⟩, [], none⟩

-- ===========================================================================
-- Helper lemmas about the merge steps
-- ===========================================================================

theorem mergeNoteStep_err (acc : MergeResult) (r : Note) (e : AppError)
    (herr : acc.err = some e) : mergeNoteStep acc r = acc := by
  simp [mergeNoteStep, herr]

theorem mergeNotebookStep_err (acc : MergeResult) (r : Notebook) (e : AppError)
    (herr : acc.err = some e) : mergeNotebookStep acc r = acc := by
  simp [mergeNotebookStep, herr]

theorem mergeTagStep_err (acc : MergeResult) (r : Tag) (e : AppError)
    (herr : acc.err = some e) : mergeTagStep acc r = acc := by
  simp [mergeTagStep, herr]

theorem mergeNoteStep_none (acc : MergeResult) (r : Note) (herr : acc.err = none)
    (h : findById (fun n => n.id) acc.db.notes r.id = none) :
    mergeNoteStep acc r = mergeNoteApply acc r := by
  simp [mergeNoteStep, herr, h]

theorem mergeNoteStep_some (acc : MergeResult) (r : Note) (l : NoteRow)
    (herr : acc.err = none)
    (h : findById (fun n => n.id) acc.db.notes r.id = some l) :
    mergeNoteStep acc r =
      (if decide (l.revision < r.revision) then mergeNoteApply acc r
      else if r.revision = l.revision then
        (if strLtB l.updated_at r.updated_at then mergeNoteApply acc r else acc)
      else
        { acc with conflicts := acc.conflicts ++
            [{ entity_type := "note", entity_id := r.id, local_revision := l.revision,
               remote_revision := r.revision, resolution := "local_wins" }] }) := by
  simp [mergeNoteStep, herr, h]

theorem mergeNotebookStep_none (acc : MergeResult) (r : Notebook) (herr : acc.err = none)
    (h : findById (fun n => n.id) acc.db.notebooks r.id = none) :
    mergeNotebookStep acc r = mergeNotebookApply acc r := by
  simp [mergeNotebookStep, herr, h]

theorem mergeNotebookStep_some (acc : MergeResult) (r : Notebook) (l : Notebook)
    (herr : acc.err = none)
    (h : findById (fun n => n.id) acc.db.notebooks r.id = some l) :
    mergeNotebookStep acc r =
      (if decide (l.revision < r.revision) then mergeNotebookApply acc r
      else if r.revision = l.revision then
        (if strLtB l.updated_at r.updated_at then mergeNotebookApply acc r else acc)
      else
        { acc with conflicts := acc.conflicts ++
            [{ entity_type := "notebook", entity_id := r.id, local_revision := l.revision,
               remote_revision := r.revision, resolution := "local_wins" }] }) := by
  simp [mergeNotebookStep, herr, h]

theorem mergeTagStep_none (acc : MergeResult) (r : Tag) (herr : acc.err = none)
    (h : findById (fun t => t.id) acc.db.tags r.id = none) :
    mergeTagStep acc r = mergeTagApply acc r := by
  simp [mergeTagStep, herr, h]

theorem mergeTagStep_some (acc : MergeResult) (r : Tag) (l : Tag)
    (herr : acc.err = none)
    (h : findById (fun t => t.id) acc.db.tags r.id = some l) :
    mergeTagStep acc r =
      (if decide (l.revision < r.revision) then mergeTagApply acc r
      else if r.revision = l.revision then
        (if strLtB l.updated_at r.updated_at then mergeTagApply acc r else acc)
      else
        { acc with conflicts := acc.conflicts ++
            [{ entity_type := "tag", entity_id := r.id, local_revision := l.revision,
               remote_revision := r.revision, resolution := "local_wins" }] }) := by
  simp [mergeTagStep, herr, h]

theorem findById_notebookMergeRows_self (db : ClientDb) (r : Notebook) :
    findById (fun x => x.id) (notebookMergeRows db r) r.id = some r := by
  unfold notebookMergeRows
  by_cases hex : (findById (fun x => x.id) db.notebooks r.id).isSome
  · rw [if_pos hex]
    unfold findById
    rw [List.find?_append]
    have hnone : List.find? (fun x => x.id == r.id)
        ((db.notebooks.filter (fun x => !(x.id == r.id))).map (fun nb =>
          if nb.parent_id == some r.id then { nb with parent_id := none } else nb))
        = none := by
      rw [List.find?_eq_none]
      intro x hx
      rw [List.mem_map] at hx
      obtain ⟨y, hy, hyx⟩ := hx
      have hyid : (y.id == r.id) = false := by
        have hmem := List.of_mem_filter hy
        simpa using hmem
      have hxid : x.id = y.id := by
        rw [← hyx]
        split <;> rfl
      simp [hxid, hyid]
    rw [hnone]
    simp [List.find?]
  · rw [if_neg hex]
    exact findById_replaceById_self (fun x => x.id) db.notebooks r

theorem findById_replaceTagRow_self (rows : List Tag) (r : Tag) :
    findById (fun t => t.id) (replaceTagRow rows r) r.id = some r := by
  unfold replaceTagRow findById
  rw [List.find?_append]
  have hnone : List.find? (fun x => x.id == r.id)
      (rows.filter (fun x => !(x.id == r.id) && !(x.name == r.name))) = none := by
    rw [List.find?_eq_none]
    intro x hx
    have hmem := List.of_mem_filter hx
    simp only [Bool.and_eq_true, Bool.not_eq_true'] at hmem
    simp [hmem.1]
  rw [hnone]
  simp [List.find?]

theorem mergeNoteApply_cases (acc : MergeResult) (r : Note) (herr : acc.err = none) :
    (noteFkOk acc.db r = true →
      findById (fun n => n.id) (mergeNoteApply acc r).db.notes r.id = some (noteToRow r) ∧
      (mergeNoteApply acc r).conflicts = acc.conflicts ∧
      (mergeNoteApply acc r).err = none) ∧
    (noteFkOk acc.db r = false →
      mergeNoteApply acc r =
        { acc with err := some (AppError.Database "FOREIGN KEY constraint failed") }) := by
  constructor
  · intro hfk
    unfold mergeNoteApply
    rw [if_pos hfk]
    exact ⟨findById_replaceById_self (fun n => n.id) acc.db.notes (noteToRow r), rfl, herr⟩
  · intro hfk
    unfold mergeNoteApply
    rw [if_neg (by simp [hfk])]

theorem mergeNotebookApply_cases (acc : MergeResult) (r : Notebook)
    (herr : acc.err = none) :
    (notebookFkOk acc.db r = true →
      findById (fun n => n.id) (mergeNotebookApply acc r).db.notebooks r.id = some r ∧
      (mergeNotebookApply acc r).conflicts = acc.conflicts ∧
      (mergeNotebookApply acc r).err = none) ∧
    (notebookFkOk acc.db r = false →
      mergeNotebookApply acc r =
        { acc with err := some (AppError.Database "FOREIGN KEY constraint failed") }) := by
  constructor
  · intro hfk
    unfold mergeNotebookApply
    rw [if_pos hfk]
    exact ⟨findById_notebookMergeRows_self acc.db r, rfl, herr⟩
  · intro hfk
    unfold mergeNotebookApply
    rw [if_neg (by simp [hfk])]

theorem mergeTagApply_cases (acc : MergeResult) (r : Tag) (herr : acc.err = none) :
    findById (fun t => t.id) (mergeTagApply acc r).db.tags r.id = some r ∧
    (mergeTagApply acc r).conflicts = acc.conflicts ∧
    (mergeTagApply acc r).err = none :=
  ⟨findById_replaceTagRow_self acc.db.tags r, rfl, herr⟩

theorem mergeNoteApply_sync_state (acc : MergeResult) (r : Note) :
    (mergeNoteApply acc r).db.sync_state = acc.db.sync_state := by
  unfold mergeNoteApply
  split <;> rfl

theorem mergeNotebookApply_sync_state (acc : MergeResult) (r : Notebook) :
    (mergeNotebookApply acc r).db.sync_state = acc.db.sync_state := by
  unfold mergeNotebookApply
  split <;> rfl

theorem mergeTagApply_sync_state (acc : MergeResult) (r : Tag) :
    (mergeTagApply acc r).db.sync_state = acc.db.sync_state := rfl

theorem mergeNoteStep_sync_state (acc : MergeResult) (r : Note) :
    (mergeNoteStep acc r).db.sync_state = acc.db.sync_state := by
  cases herr : acc.err with
  | some e => rw [mergeNoteStep_err acc r e herr]
  | none =>
    cases hfind : findById (fun n => n.id) acc.db.notes r.id with
    | none =>
      rw [mergeNoteStep_none acc r herr hfind]
      exact mergeNoteApply_sync_state acc r
    | some l =>
      rw [mergeNoteStep_some acc r l herr hfind]
      by_cases h1 : decide (l.revision < r.revision) = true
      · rw [if_pos h1]
        exact mergeNoteApply_sync_state acc r
      · rw [if_neg h1]
        by_cases h2 : r.revision = l.revision
        · rw [if_pos h2]
          by_cases h3 : strLtB l.updated_at r.updated_at = true
          · rw [if_pos h3]
            exact mergeNoteApply_sync_state acc r
          · rw [if_neg h3]
        · rw [if_neg h2]

theorem mergeNotebookStep_sync_state (acc : MergeResult) (r : Notebook) :
    (mergeNotebookStep acc r).db.sync_state = acc.db.sync_state := by
  cases herr : acc.err with
  | some e => rw [mergeNotebookStep_err acc r e herr]
  | none =>
    cases hfind : findById (fun n => n.id) acc.db.notebooks r.id with
    | none =>
      rw [mergeNotebookStep_none acc r herr hfind]
      exact mergeNotebookApply_sync_state acc r
    | some l =>
      rw [mergeNotebookStep_some acc r l herr hfind]
      by_cases h1 : decide (l.revision < r.revision) = true
      · rw [if_pos h1]
        exact mergeNotebookApply_sync_state acc r
      · rw [if_neg h1]
        by_cases h2 : r.revision = l.revision
        · rw [if_pos h2]
          by_cases h3 : strLtB l.updated_at r.updated_at = true
          · rw [if_pos h3]
            exact mergeNotebookApply_sync_state acc r
          · rw [if_neg h3]
        · rw [if_neg h2]

theorem mergeTagStep_sync_state (acc : MergeResult) (r : Tag) :
    (mergeTagStep acc r).db.sync_state = acc.db.sync_state := by
  cases herr : acc.err with
  | some e => rw [mergeTagStep_err acc r e herr]
  | none =>
    cases hfind : findById (fun t => t.id) acc.db.tags r.id with
    | none =>
      rw [mergeTagStep_none acc r herr hfind]
      exact mergeTagApply_sync_state acc r
    | some l =>
      rw [mergeTagStep_some acc r l herr hfind]
      by_cases h1 : decide (l.revision < r.revision) = true
      · rw [if_pos h1]
        exact mergeTagApply_sync_state acc r
      · rw [if_neg h1]
        by_cases h2 : r.revision = l.revision
        · rw [if_pos h2]
          by_cases h3 : strLtB l.updated_at r.updated_at = true
          · rw [if_pos h3]
            exact mergeTagApply_sync_state acc r
          · rw [if_neg h3]
        · rw [if_neg h2]

theorem foldl_sync_state {β : Type} (f : MergeResult → β → MergeResult)
    (hf : ∀ acc b, (f acc b).db.sync_state = acc.db.sync_state) (l : List β) :
    ∀ acc : MergeResult, (l.foldl f acc).db.sync_state = acc.db.sync_state := by
  induction l with
  | nil => intro acc; rfl
  | cons b t ih => intro acc; rw [List.foldl_cons, ih, hf]

theorem merge_sync_state (db : ClientDb) (remote : SyncPayload) :
    (merge_remote_changes db remote).db.sync_state = db.sync_state := by
  show (remote.tags.foldl mergeTagStep
      (remote.notebooks.foldl mergeNotebookStep
        (remote.notes.foldl mergeNoteStep ⟨db, ⟨0, 0, 0⟩, [], none⟩))).db.sync_state
    = db.sync_state
  rw [foldl_sync_state mergeTagStep mergeTagStep_sync_state,
      foldl_sync_state mergeNotebookStep mergeNotebookStep_sync_state,
      foldl_sync_state mergeNoteStep mergeNoteStep_sync_state]

-- ===========================================================================
-- C1
-- ===========================================================================

/-- C1 counterexample: a pulled note that references a notebook the client
does not have.  No local note with its id exists, so the claim's LWW rule
says the remote note is applied unconditionally; instead the
`INSERT OR REPLACE` violates `notebook_id REFERENCES notebooks(id)`
(with `PRAGMA foreign_keys = ON`, and the payload's notes are merged
before its notebooks), `merge_remote_changes` aborts with the database
error, and the note is not stored. -/
theorem C1_fk_abort_counterexample :
    findById (fun n => n.id) emptyClientDb.notes exNoteBad.id = none ∧
    (merge_remote_changes emptyClientDb
        { notes := [exNoteBad], notebooks := [], tags := [],
          since_revision := 0 }).db.notes = [] ∧
    (merge_remote_changes emptyClientDb
        { notes := [exNoteBad], notebooks := [], tags := [],
          since_revision := 0 }).err
      = some (AppError.Database "FOREIGN KEY constraint failed") :=
  ⟨rfl, rfl, rfl⟩

/-- C1 amended: client-side LWW merge with foreign keys.  For every
incoming remote entity processed on an error-free accumulator the loop
bodies of `merge_remote_changes` decide by last-writer-wins: the remote
is applied when no local row with its id exists, when its revision is
greater, or on a revision tie when its `updated_at` is strictly greater
(a tie on both keeps the local row); a smaller remote revision keeps the
local row and records a `local_wins` conflict.  PROVISO: applying a note
(or notebook) succeeds — storing the remote row verbatim, all attributes
and the revision — only when its notebook (parent) reference resolves;
otherwise the statement violates a foreign key and the merge aborts with
the database error.  Applying a tag always succeeds. -/
theorem C1_client_lww_merge :
    (∀ r : Note, (noteToRow r).revision = r.revision) ∧
    (∀ (acc : MergeResult) (r : Note), acc.err = none →
      (findById (fun n => n.id) acc.db.notes r.id = none →
        (noteFkOk acc.db r = true →
          findById (fun n => n.id) (mergeNoteStep acc r).db.notes r.id
              = some (noteToRow r) ∧
          (mergeNoteStep acc r).conflicts = acc.conflicts ∧
          (mergeNoteStep acc r).err = none) ∧
        (noteFkOk acc.db r = false →
          mergeNoteStep acc r =
            { acc with
              err := some (AppError.Database "FOREIGN KEY constraint failed") })) ∧
      (∀ l, findById (fun n => n.id) acc.db.notes r.id = some l →
        (l.revision < r.revision →
          (noteFkOk acc.db r = true →
            findById (fun n => n.id) (mergeNoteStep acc r).db.notes r.id
                = some (noteToRow r) ∧
            (mergeNoteStep acc r).conflicts = acc.conflicts ∧
            (mergeNoteStep acc r).err = none) ∧
          (noteFkOk acc.db r = false →
            mergeNoteStep acc r =
              { acc with
                err := some (AppError.Database "FOREIGN KEY constraint failed") })) ∧
        (r.revision = l.revision → strLtB l.updated_at r.updated_at = true →
          (noteFkOk acc.db r = true →
            findById (fun n => n.id) (mergeNoteStep acc r).db.notes r.id
                = some (noteToRow r) ∧
            (mergeNoteStep acc r).conflicts = acc.conflicts ∧
            (mergeNoteStep acc r).err = none) ∧
          (noteFkOk acc.db r = false →
            mergeNoteStep acc r =
              { acc with
                err := some (AppError.Database "FOREIGN KEY constraint failed") })) ∧
        (r.revision = l.revision → strLtB l.updated_at r.updated_at = false →
          mergeNoteStep acc r = acc) ∧
        (r.revision < l.revision →
          mergeNoteStep acc r = { acc with conflicts := acc.conflicts ++
            [{ entity_type := "note", entity_id := r.id, local_revision := l.revision,
               remote_revision := r.revision, resolution := "local_wins" }] }))) ∧
    (∀ (acc : MergeResult) (r : Notebook), acc.err = none →
      (findById (fun n => n.id) acc.db.notebooks r.id = none →
        (notebookFkOk acc.db r = true →
          findById (fun n => n.id) (mergeNotebookStep acc r).db.notebooks r.id = some r ∧
          (mergeNotebookStep acc r).conflicts = acc.conflicts ∧
          (mergeNotebookStep acc r).err = none) ∧
        (notebookFkOk acc.db r = false →
          mergeNotebookStep acc r =
            { acc with
              err := some (AppError.Database "FOREIGN KEY constraint failed") })) ∧
      (∀ l, findById (fun n => n.id) acc.db.notebooks r.id = some l →
        (l.revision < r.revision →
          (notebookFkOk acc.db r = true →
            findById (fun n => n.id) (mergeNotebookStep acc r).db.notebooks r.id
                = some r ∧
            (mergeNotebookStep acc r).conflicts = acc.conflicts ∧
            (mergeNotebookStep acc r).err = none) ∧
          (notebookFkOk acc.db r = false →
            mergeNotebookStep acc r =
              { acc with
                err := some (AppError.Database "FOREIGN KEY constraint failed") })) ∧
        (r.revision = l.revision → strLtB l.updated_at r.updated_at = true →
          (notebookFkOk acc.db r = true →
            findById (fun n => n.id) (mergeNotebookStep acc r).db.notebooks r.id
                = some r ∧
            (mergeNotebookStep acc r).conflicts = acc.conflicts ∧
            (mergeNotebookStep acc r).err = none) ∧
          (notebookFkOk acc.db r = false →
            mergeNotebookStep acc r =
              { acc with
                err := some (AppError.Database "FOREIGN KEY constraint failed") })) ∧
        (r.revision = l.revision → strLtB l.updated_at r.updated_at = false →
          mergeNotebookStep acc r = acc) ∧
        (r.revision < l.revision →
          mergeNotebookStep acc r = { acc with conflicts := acc.conflicts ++
            [{ entity_type := "notebook", entity_id := r.id,
               local_revision := l.revision, remote_revision := r.revision,
               resolution := "local_wins" }] }))) ∧
    (∀ (acc : MergeResult) (r : Tag), acc.err = none →
      (findById (fun t => t.id) acc.db.tags r.id = none →
        findById (fun t => t.id) (mergeTagStep acc r).db.tags r.id = some r ∧
        (mergeTagStep acc r).conflicts = acc.conflicts ∧
        (mergeTagStep acc r).err = none) ∧
      (∀ l, findById (fun t => t.id) acc.db.tags r.id = some l →
        (l.revision < r.revision →
          findById (fun t => t.id) (mergeTagStep acc r).db.tags r.id = some r ∧
          (mergeTagStep acc r).conflicts = acc.conflicts ∧
          (mergeTagStep acc r).err = none) ∧
        (r.revision = l.revision → strLtB l.updated_at r.updated_at = true →
          findById (fun t => t.id) (mergeTagStep acc r).db.tags r.id = some r ∧
          (mergeTagStep acc r).conflicts = acc.conflicts ∧
          (mergeTagStep acc r).err = none) ∧
        (r.revision = l.revision → strLtB l.updated_at r.updated_at = false →
          mergeTagStep acc r = acc) ∧
        (r.revision < l.revision →
          mergeTagStep acc r = { acc with conflicts := acc.conflicts ++
            [{ entity_type := "tag", entity_id := r.id, local_revision := l.revision,
               remote_revision := r.revision, resolution := "local_wins" }] }))) := by
  refine ⟨fun r => rfl, ?_, ?_, ?_⟩
  · intro acc r herr
    constructor
    · intro h
      rw [mergeNoteStep_none acc r herr h]
      exact mergeNoteApply_cases acc r herr
    · intro l hl
      have hs := mergeNoteStep_some acc r l herr hl
      refine ⟨?_, ?_, ?_, ?_⟩
      · intro hlt
        rw [hs, if_pos (decide_eq_true hlt)]
        exact mergeNoteApply_cases acc r herr
      · intro heq hstr
        rw [hs, if_neg (by simp [heq]), if_pos heq, if_pos hstr]
        exact mergeNoteApply_cases acc r herr
      · intro heq hstr
        rw [hs, if_neg (by simp [heq]), if_pos heq, if_neg (by simp [hstr])]
      · intro hgt
        rw [hs, if_neg (by simp; omega), if_neg (by omega)]
  · intro acc r herr
    constructor
    · intro h
      rw [mergeNotebookStep_none acc r herr h]
      exact mergeNotebookApply_cases acc r herr
    · intro l hl
      have hs := mergeNotebookStep_some acc r l herr hl
      refine ⟨?_, ?_, ?_, ?_⟩
      · intro hlt
        rw [hs, if_pos (decide_eq_true hlt)]
        exact mergeNotebookApply_cases acc r herr
      · intro heq hstr
        rw [hs, if_neg (by simp [heq]), if_pos heq, if_pos hstr]
        exact mergeNotebookApply_cases acc r herr
      · intro heq hstr
        rw [hs, if_neg (by simp [heq]), if_pos heq, if_neg (by simp [hstr])]
      · intro hgt
        rw [hs, if_neg (by simp; omega), if_neg (by omega)]
  · intro acc r herr
    constructor
    · intro h
      rw [mergeTagStep_none acc r herr h]
      exact mergeTagApply_cases acc r herr
    · intro l hl
      have hs := mergeTagStep_some acc r l herr hl
      refine ⟨?_, ?_, ?_, ?_⟩
      · intro hlt
        rw [hs, if_pos (decide_eq_true hlt)]
        exact mergeTagApply_cases acc r herr
      · intro heq hstr
        rw [hs, if_neg (by simp [heq]), if_pos heq, if_pos hstr]
        exact mergeTagApply_cases acc r herr
      · intro heq hstr
        rw [hs, if_neg (by simp [heq]), if_pos heq, if_neg (by simp [hstr])]
      · intro hgt
        rw [hs, if_neg (by simp; omega), if_neg (by omega)]

/-- C1 witness: a concrete local store with revision 1 and a remote note
with revision 2 whose notebook reference resolves (it is null); the
remote is applied and stored verbatim with no conflict and no error. -/
theorem C1_client_lww_merge_witness :
    (1 : Int) < 2 ∧ noteFkOk exAccC1.db exNoteR = true ∧
    (findById (fun n => n.id) (mergeNoteStep exAccC1 exNoteR).db.notes "n1"
        = some (noteToRow exNoteR) ∧
     (mergeNoteStep exAccC1 exNoteR).conflicts = [] ∧
     (mergeNoteStep exAccC1 exNoteR).err = none) :=
  ⟨by decide, by decide,
   (((C1_client_lww_merge.2.1 exAccC1 exNoteR rfl).2 exNoteRowA (by decide)).1
      (by decide)).1 (by decide)⟩

-- ===========================================================================
-- C9
-- ===========================================================================

theorem mergeNoteStep_new_row (acc : MergeResult) (r : Note) (row : NoteRow)
    (hfind : findById (fun n => n.id) (mergeNoteStep acc r).db.notes r.id = some row)
    (hnew : row ∉ acc.db.notes) : row = noteToRow r := by
  have happly : findById (fun n => n.id) (mergeNoteApply acc r).db.notes r.id = some row →
      row = noteToRow r := by
    intro hf
    unfold mergeNoteApply at hf
    by_cases hfk : noteFkOk acc.db r = true
    · rw [if_pos hfk] at hf
      have h2 : some (noteToRow r) = some row := by
        rw [← hf]
        exact (findById_replaceById_self (fun n => n.id) acc.db.notes (noteToRow r)).symm
      exact (Option.some.inj h2).symm
    · rw [if_neg hfk] at hf
      exact absurd (List.mem_of_find?_eq_some hf) hnew
  cases herr : acc.err with
  | some e =>
    rw [mergeNoteStep_err acc r e herr] at hfind
    exact absurd (List.mem_of_find?_eq_some hfind) hnew
  | none =>
    cases hloc : findById (fun n => n.id) acc.db.notes r.id with
    | none =>
      rw [mergeNoteStep_none acc r herr hloc] at hfind
      exact happly hfind
    | some l =>
      rw [mergeNoteStep_some acc r l herr hloc] at hfind
      by_cases h1 : l.revision < r.revision
      · rw [if_pos (decide_eq_true h1)] at hfind
        exact happly hfind
      · rw [if_neg (by simpa using h1)] at hfind
        by_cases h2 : r.revision = l.revision
        · rw [if_pos h2] at hfind
          by_cases h3 : strLtB l.updated_at r.updated_at = true
          · rw [if_pos h3] at hfind
            exact happly hfind
          · rw [if_neg h3] at hfind
            exact absurd (List.mem_of_find?_eq_some hfind) hnew
        · rw [if_neg h2] at hfind
          exact absurd (List.mem_of_find?_eq_some hfind) hnew

theorem mergeNotebookStep_new_row (acc : MergeResult) (r : Notebook) (row : Notebook)
    (hfind : findById (fun n => n.id) (mergeNotebookStep acc r).db.notebooks r.id
      = some row)
    (hnew : row ∉ acc.db.notebooks) : row = r := by
  have happly : findById (fun n => n.id) (mergeNotebookApply acc r).db.notebooks r.id
      = some row → row = r := by
    intro hf
    unfold mergeNotebookApply at hf
    by_cases hfk : notebookFkOk acc.db r = true
    · rw [if_pos hfk] at hf
      have h2 : some r = some row := by
        rw [← hf]
        exact (findById_notebookMergeRows_self acc.db r).symm
      exact (Option.some.inj h2).symm
    · rw [if_neg hfk] at hf
      exact absurd (List.mem_of_find?_eq_some hf) hnew
  cases herr : acc.err with
  | some e =>
    rw [mergeNotebookStep_err acc r e herr] at hfind
    exact absurd (List.mem_of_find?_eq_some hfind) hnew
  | none =>
    cases hloc : findById (fun n => n.id) acc.db.notebooks r.id with
    | none =>
      rw [mergeNotebookStep_none acc r herr hloc] at hfind
      exact happly hfind
    | some l =>
      rw [mergeNotebookStep_some acc r l herr hloc] at hfind
      by_cases h1 : l.revision < r.revision
      · rw [if_pos (decide_eq_true h1)] at hfind
        exact happly hfind
      · rw [if_neg (by simpa using h1)] at hfind
        by_cases h2 : r.revision = l.revision
        · rw [if_pos h2] at hfind
          by_cases h3 : strLtB l.updated_at r.updated_at = true
          · rw [if_pos h3] at hfind
            exact happly hfind
          · rw [if_neg h3] at hfind
            exact absurd (List.mem_of_find?_eq_some hfind) hnew
        · rw [if_neg h2] at hfind
          exact absurd (List.mem_of_find?_eq_some hfind) hnew

/-- C9: the sync wire format carries neither a note's `is_pinned` nor a
notebook's `icon`: `server_to_note` always produces `is_pinned = false`
and `server_to_notebook` always produces `icon = none`, so any row newly
stored by the merge step for a pulled entity has `is_pinned = false`
(respectively `icon = none`), regardless of what the client held before. -/
theorem C9_wire_format_drops_pinned_and_icon :
    (∀ s : SNote, (server_to_note s).is_pinned = false) ∧
    (∀ s : SNotebook, (server_to_notebook s).icon = none) ∧
    (∀ (acc : MergeResult) (s : SNote) (row : NoteRow),
      findById (fun n => n.id) (mergeNoteStep acc (server_to_note s)).db.notes s.id
          = some row →
      row ∉ acc.db.notes → row.is_pinned = false) ∧
    (∀ (acc : MergeResult) (s : SNotebook) (row : Notebook),
      findById (fun n => n.id)
          (mergeNotebookStep acc (server_to_notebook s)).db.notebooks s.id = some row →
      row ∉ acc.db.notebooks → row.icon = none) := by
  refine ⟨fun s => rfl, fun s => rfl, ?_, ?_⟩
  · intro acc s row hfind hnew
    have hrow := mergeNoteStep_new_row acc (server_to_note s) row hfind hnew
    rw [hrow]
    rfl
  · intro acc s row hfind hnew
    have hrow := mergeNotebookStep_new_row acc (server_to_notebook s) row hfind hnew
    rw [hrow]
    rfl

/-- C9 witness: merging a concrete pulled note into a local store that pins
its copy stores an unpinned row. -/
theorem C9_wire_format_drops_pinned_and_icon_witness :
    (findById (fun n => n.id)
        (mergeNoteStep exAccC9 (server_to_note exSNoteWire)).db.notes "n9"
      = some (noteToRow (server_to_note exSNoteWire))) ∧
    (noteToRow (server_to_note exSNoteWire)) ∉ exAccC9.db.notes ∧
    (noteToRow (server_to_note exSNoteWire)).is_pinned = false :=
  ⟨by decide, by decide,
   C9_wire_format_drops_pinned_and_icon.2.2.1 exAccC9 exSNoteWire
     (noteToRow (server_to_note exSNoteWire)) (by decide) (by decide)⟩

-- ===========================================================================
-- C10
-- ===========================================================================

/-- C10 counterexample: a pull payload whose first note applies cleanly and
whose second note violates the notebook foreign key.  The first note's
row stays committed (the merge runs outside a transaction), the command
returns the database error, and — because the error return precedes the
cursor update — `last_pull_revision` stays at 0 even though an entity was
applied, contradicting the claim that the cursor always advances to the
applied-count maximum. -/
theorem C10_partial_merge_counterexample :
    (merge_remote_changes emptyClientDb exPayloadC10err).db.notes
      = [noteToRow exNoteR] ∧
    (merge_remote_changes emptyClientDb exPayloadC10err).err
      = some (AppError.Database "FOREIGN KEY constraint failed") ∧
    (apply_remote_changes emptyClientDb exPayloadC10err "2024-02-01T00:00:00Z").1.notes
      = [noteToRow exNoteR] ∧
    (apply_remote_changes emptyClientDb exPayloadC10err
        "2024-02-01T00:00:00Z").1.sync_state = some ⟨0, 0, none⟩ ∧
    (apply_remote_changes emptyClientDb exPayloadC10err "2024-02-01T00:00:00Z").2
      = .error (AppError.Database "FOREIGN KEY constraint failed") :=
  ⟨rfl, rfl, rfl, rfl, rfl⟩

/-- C10 amended: when the merge returns without error,
`apply_remote_changes` advances `last_pull_revision` to the maximum of
its previous value and the largest per-kind count of entities applied by
the merge (treated as a revision number), and leaves the `sync_state` row
unchanged when nothing was applied; when the merge aborts with an error
the command returns that error and the cursor is not touched (the rows
already applied stay committed).  In either case the result never
consults `since_revision`, the only other numeric field of the payload. -/
theorem C10_pull_cursor_from_applied_counts (db : ClientDb) (payload : SyncPayload)
    (s : SyncRow) (now : String) (x : Int) (h : db.sync_state = some s) :
    ((merge_remote_changes db payload).err = none →
      (apply_remote_changes db payload now).1.sync_state =
        some (if 0 < max (max (merge_remote_changes db payload).stats.notes
                              (merge_remote_changes db payload).stats.notebooks)
                         (merge_remote_changes db payload).stats.tags then
                { s with
                  last_pull_revision :=
                    max s.last_pull_revision
                      (max (max (merge_remote_changes db payload).stats.notes
                                (merge_remote_changes db payload).stats.notebooks)
                           (merge_remote_changes db payload).stats.tags),
                  last_synced_at := some now }
              else s)) ∧
    (∀ e, (merge_remote_changes db payload).err = some e →
      (apply_remote_changes db payload now).1.sync_state = some s ∧
      (apply_remote_changes db payload now).2 = .error e) ∧
    apply_remote_changes db { payload with since_revision := x } now
      = apply_remote_changes db payload now := by
  have hsync : (merge_remote_changes db payload).db.sync_state = some s := by
    rw [merge_sync_state db payload, h]
  refine ⟨?_, ?_, rfl⟩
  · intro herr
    by_cases hm : 0 < max (max (merge_remote_changes db payload).stats.notes
                               (merge_remote_changes db payload).stats.notebooks)
                          (merge_remote_changes db payload).stats.tags
    · rw [if_pos hm]
      simp only [apply_remote_changes, herr]
      rw [if_pos hm]
      simp only [update_sync_state, get_sync_state, hsync]
      rfl
    · rw [if_neg hm]
      simp only [apply_remote_changes, herr]
      rw [if_neg hm]
      exact hsync
  · intro e herr
    simp only [apply_remote_changes, herr]
    exact ⟨hsync, trivial⟩

/-- C10 witness: applying a payload with one fresh note to a database whose
cursors are 0 merges without error and advances `last_pull_revision` to
`max 0 1 = 1`. -/
theorem C10_pull_cursor_from_applied_counts_witness :
    emptyClientDb.sync_state = some ⟨0, 0, none⟩ ∧
    (merge_remote_changes emptyClientDb exPayloadC10).err = none ∧
    ((apply_remote_changes emptyClientDb exPayloadC10 "2024-02-01T00:00:00Z").1.sync_state =
      some (if 0 < max (max (merge_remote_changes emptyClientDb exPayloadC10).stats.notes
                            (merge_remote_changes emptyClientDb
                              exPayloadC10).stats.notebooks)
                       (merge_remote_changes emptyClientDb exPayloadC10).stats.tags then
              { (⟨0, 0, none⟩ : SyncRow) with
                last_pull_revision :=
                  max (0 : Int)
                    (max (max (merge_remote_changes emptyClientDb exPayloadC10).stats.notes
                              (merge_remote_changes emptyClientDb
                                exPayloadC10).stats.notebooks)
                         (merge_remote_changes emptyClientDb exPayloadC10).stats.tags),
                last_synced_at := some "2024-02-01T00:00:00Z" }
            else ⟨0, 0, none⟩)) :=
  ⟨rfl, rfl,
   (C10_pull_cursor_from_applied_counts emptyClientDb exPayloadC10 ⟨0, 0, none⟩
      "2024-02-01T00:00:00Z" 0 rfl).1 rfl⟩

-- ===========================================================================
-- C3
-- ===========================================================================

/-- C3 counterexample: a database with a single tombstoned note of
revision 5 and both cursors at 0: `get_sync_state` reports 0 pending
changes, while the count of all entities (tombstoned included) with
revision above `last_push_revision` — the claim's value — is 1. -/
theorem C3_pending_counts_tombstones_counterexample :
    (get_sync_state exDbC3).pending_changes = 0 ∧
    pendingChangesSpec exDbC3 (get_sync_state exDbC3).last_push_revision = 1 ∧
    (get_sync_state exDbC3).pending_changes ≠
      pendingChangesSpec exDbC3 (get_sync_state exDbC3).last_push_revision := by
  refine ⟨by decide, by decide, by decide⟩

/-- C3 amended: `get_sync_state` returns `pending_changes` equal to the
number of NON-tombstoned entities (notes plus notebooks plus tags with
`deleted_at IS NULL`) among `get_changes_since(last_push_revision)`;
tombstoned rows are excluded from the count even though `get_changes_since`
returns them. -/
theorem C3_pending_changes_excludes_tombstones (db : ClientDb) :
    (get_sync_state db).pending_changes =
      (((get_changes_since db (get_sync_state db).last_push_revision).notes.filter
          (fun n => n.deleted_at.isNone)).length : Int)
      + (((get_changes_since db (get_sync_state db).last_push_revision).notebooks.filter
          (fun n => n.deleted_at.isNone)).length : Int)
      + (((get_changes_since db (get_sync_state db).last_push_revision).tags.filter
          (fun t => t.deleted_at.isNone)).length : Int) := by
  simp only [get_sync_state, get_changes_since, countRows]
  rw [List.filter_map, List.filter_filter, List.filter_filter, List.filter_filter]
  simp only [List.length_map]
  congr 2
  all_goals
    congr 1
    congr 1
    congr 1
    funext a
    simp [Function.comp, rowToNote, Bool.and_comm]

-- ===========================================================================
-- C2
-- ===========================================================================

theorem findById_map_ite {α : Type} (idOf : α → String) (rows : List α) (i : String)
    (g : α → α) (hg : ∀ x, idOf (g x) = idOf x) (l : α)
    (h : findById idOf rows i = some l) :
    findById idOf (rows.map (fun x => if idOf x == i then g x else x)) i = some (g l) := by
  induction rows with
  | nil => simp [findById, List.find?] at h
  | cons x xs ih =>
    by_cases hx : idOf x = i
    · have hb : (idOf x == i) = true := by simpa using hx
      have hl : x = l := by
        have h' := h
        simp only [findById, List.find?, hb] at h'
        exact Option.some.inj h'
      subst hl
      have hgb : (idOf (g x) == i) = true := by rw [hg]; exact hb
      simp only [findById, List.map_cons, if_pos hb, List.find?, hgb]
    · have hb : (idOf x == i) = false := by simpa using hx
      have h2 : findById idOf xs i = some l := by
        have h' := h
        simp only [findById, List.find?, hb] at h'
        exact h'
      have hstep := ih h2
      simp only [findById, List.find?, List.map_cons] at hstep ⊢
      rw [if_neg (by simp [hb])]
      simp only [List.find?, hb]
      exact hstep

theorem upsertSqlNote_find (rows : List SNote) (n : SNote) (newRev : Int) (l : SNote)
    (hfind : findById (fun x => x.id) rows n.id = some l) :
    findById (fun x => x.id) (upsertSqlNote rows n newRev) n.id =
      some { l with title := n.title, content := n.content, notebook_id := n.notebook_id,
                    tags := n.tags, status := n.status, updated_at := n.updated_at,
                    revision := newRev, is_deleted := n.is_deleted } := by
  have hfind' : List.find? (fun x => x.id == n.id) rows = some l := hfind
  have hmem := List.mem_of_find?_eq_some hfind'
  have hp := List.find?_some hfind'
  have hany : rows.any (fun x => x.id == n.id) = true := by
    rw [List.any_eq_true]
    exact ⟨l, hmem, hp⟩
  unfold upsertSqlNote
  rw [if_pos hany]
  refine findById_map_ite (fun x => x.id) rows n.id
    (fun x => { x with title := n.title, content := n.content,
                       notebook_id := n.notebook_id, tags := n.tags, status := n.status,
                       updated_at := n.updated_at, revision := newRev,
                       is_deleted := n.is_deleted })
    ?_ l hfind
  intro x
  rfl

theorem upsertSqlNotebook_find (rows : List SNotebook) (n : SNotebook) (newRev : Int)
    (l : SNotebook) (hfind : findById (fun x => x.id) rows n.id = some l) :
    findById (fun x => x.id) (upsertSqlNotebook rows n newRev) n.id =
      some { l with name := n.name, color := n.color, parent_id := n.parent_id,
                    updated_at := n.updated_at, revision := newRev,
                    is_deleted := n.is_deleted } := by
  have hfind' : List.find? (fun x => x.id == n.id) rows = some l := hfind
  have hmem := List.mem_of_find?_eq_some hfind'
  have hp := List.find?_some hfind'
  have hany : rows.any (fun x => x.id == n.id) = true := by
    rw [List.any_eq_true]
    exact ⟨l, hmem, hp⟩
  unfold upsertSqlNotebook
  rw [if_pos hany]
  refine findById_map_ite (fun x => x.id) rows n.id
    (fun x => { x with name := n.name, color := n.color, parent_id := n.parent_id,
                       updated_at := n.updated_at, revision := newRev,
                       is_deleted := n.is_deleted })
    ?_ l hfind
  intro x
  rfl

theorem upsertSqlTag_find (rows : List STag) (t : STag) (newRev : Int) (l : STag)
    (hfind : findById (fun x => x.id) rows t.id = some l) :
    findById (fun x => x.id) (upsertSqlTag rows t newRev) t.id =
      some { l with name := t.name, color := t.color, updated_at := t.updated_at,
                    revision := newRev, is_deleted := t.is_deleted } := by
  have hfind' : List.find? (fun x => x.id == t.id) rows = some l := hfind
  have hmem := List.mem_of_find?_eq_some hfind'
  have hp := List.find?_some hfind'
  have hany : rows.any (fun x => x.id == t.id) = true := by
    rw [List.any_eq_true]
    exact ⟨l, hmem, hp⟩
  unfold upsertSqlTag
  rw [if_pos hany]
  refine findById_map_ite (fun x => x.id) rows t.id
    (fun x => { x with name := t.name, color := t.color, updated_at := t.updated_at,
                       revision := newRev, is_deleted := t.is_deleted })
    ?_ l hfind
  intro x
  rfl

theorem upsert_note_some (db : ServerDb) (n : SNote) (l : SNote)
    (hfind : findById (fun x => x.id) db.notes n.id = some l) :
    upsert_note db n =
      (if decide (l.revision ≤ n.revision) then
        ({ db with notes := upsertSqlNote db.notes n (db.global_revision + 1),
                   global_revision := db.global_revision + 1 },
         decide (n.revision ≤ l.revision), db.global_revision + 1)
      else (db, true, l.revision)) := by
  simp only [upsert_note, hfind, Option.map_some, increment_global_revision]
  rfl

theorem upsert_notebook_some (db : ServerDb) (n : SNotebook) (l : SNotebook)
    (hfind : findById (fun x => x.id) db.notebooks n.id = some l) :
    upsert_notebook db n =
      (if decide (l.revision ≤ n.revision) then
        ({ db with notebooks := upsertSqlNotebook db.notebooks n (db.global_revision + 1),
                   global_revision := db.global_revision + 1 },
         decide (n.revision ≤ l.revision), db.global_revision + 1)
      else (db, true, l.revision)) := by
  simp only [upsert_notebook, hfind, Option.map_some, increment_global_revision]
  rfl

theorem upsert_tag_some (db : ServerDb) (t : STag) (l : STag)
    (hfind : findById (fun x => x.id) db.tags t.id = some l) :
    upsert_tag db t =
      (if decide (l.revision ≤ t.revision) then
        (if db.tags.any (fun x => x.name == t.name && !(x.id == t.id)) then
          ({ db with global_revision := db.global_revision + 1 },
           .error (AppError.Database "UNIQUE constraint failed: tags.name"))
        else
          ({ db with tags := upsertSqlTag db.tags t (db.global_revision + 1),
                     global_revision := db.global_revision + 1 },
           .ok (decide (t.revision ≤ l.revision), db.global_revision + 1)))
      else (db, .ok (true, l.revision))) := by
  simp only [upsert_tag, hfind, Option.map_some, increment_global_revision]
  rfl

/-- C2 counterexample: a stored note with revision 1 and title `Original`
and an incoming push of the same id with the equal revision 1 and title
`Changed`: the upsert overwrites the stored attributes (the title becomes
`Changed`), so the claim that the server keeps its own row unchanged on a
revision tie is false. -/
theorem C2_server_tie_counterexample :
    exSNoteIncoming.revision = exSNoteStored.revision ∧
    exSNoteStored.title = "Original" ∧
    (upsert_note exServerDb exSNoteIncoming).1.notes.map (fun x => x.title) = ["Changed"] ∧
    (upsert_note exServerDb exSNoteIncoming).1.notes.map (fun x => x.title) ≠ ["Original"] := by
  refine ⟨by decide, by decide, by decide, by decide⟩

/-- C2 amended: on the server, an incoming entity whose revision is greater
than OR EQUAL to the stored revision is applied: every attribute except
`created_at` is overwritten from the incoming entity and the revision is
stamped with the next global revision.  The conflict flag is reported
exactly when the incoming revision is less than or equal to the stored
one (so a tie both applies the incoming attributes and reports a
conflict), the push handler turns the flag into a conflict with
resolution `server_wins`, and only an incoming revision strictly below
the stored one leaves the stored row untouched. -/
theorem C2_server_upsert_tie_applies_incoming :
    (∀ (db : ServerDb) (n : SNote) (l : SNote),
      findById (fun x => x.id) db.notes n.id = some l →
      ((upsert_note db n).2.1 = true ↔ n.revision ≤ l.revision) ∧
      (n.revision = l.revision →
        findById (fun x => x.id) (upsert_note db n).1.notes n.id =
          some { l with title := n.title, content := n.content,
                        notebook_id := n.notebook_id, tags := n.tags, status := n.status,
                        updated_at := n.updated_at, revision := db.global_revision + 1,
                        is_deleted := n.is_deleted } ∧
        (upsert_note db n).2.2 = db.global_revision + 1) ∧
      (n.revision < l.revision →
        (upsert_note db n).1 = db ∧ (upsert_note db n).2 = (true, l.revision)) ∧
      (∀ (cs : List Conflict) (k : Int), n.revision ≤ l.revision →
        (pushNoteStep (db, cs, k) n).2.1 = cs ++
          [{ entity_type := "note", entity_id := n.id, local_revision := n.revision,
             server_revision := (upsert_note db n).2.2, resolution := "server_wins" }])) ∧
    (∀ (db : ServerDb) (n : SNotebook) (l : SNotebook),
      findById (fun x => x.id) db.notebooks n.id = some l →
      ((upsert_notebook db n).2.1 = true ↔ n.revision ≤ l.revision) ∧
      (n.revision = l.revision →
        findById (fun x => x.id) (upsert_notebook db n).1.notebooks n.id =
          some { l with name := n.name, color := n.color, parent_id := n.parent_id,
                        updated_at := n.updated_at, revision := db.global_revision + 1,
                        is_deleted := n.is_deleted } ∧
        (upsert_notebook db n).2.2 = db.global_revision + 1) ∧
      (n.revision < l.revision →
        (upsert_notebook db n).1 = db ∧ (upsert_notebook db n).2 = (true, l.revision)) ∧
      (∀ (cs : List Conflict) (k : Int), n.revision ≤ l.revision →
        (pushNotebookStep (db, cs, k) n).2.1 = cs ++
          [{ entity_type := "notebook", entity_id := n.id, local_revision := n.revision,
             server_revision := (upsert_notebook db n).2.2,
             resolution := "server_wins" }])) ∧
    (∀ (db : ServerDb) (t : STag) (l : STag),
      findById (fun x => x.id) db.tags t.id = some l →
      (∀ (c : Bool) (rev : Int), (upsert_tag db t).2 = .ok (c, rev) →
        (c = true ↔ t.revision ≤ l.revision)) ∧
      (db.tags.any (fun x => x.name == t.name && !(x.id == t.id)) = false →
        t.revision = l.revision →
        findById (fun x => x.id) (upsert_tag db t).1.tags t.id =
          some { l with name := t.name, color := t.color, updated_at := t.updated_at,
                        revision := db.global_revision + 1,
                        is_deleted := t.is_deleted } ∧
        (upsert_tag db t).2 = .ok (true, db.global_revision + 1)) ∧
      (db.tags.any (fun x => x.name == t.name && !(x.id == t.id)) = true →
        l.revision ≤ t.revision →
        upsert_tag db t = ({ db with global_revision := db.global_revision + 1 },
          .error (AppError.Database "UNIQUE constraint failed: tags.name"))) ∧
      (t.revision < l.revision →
        (upsert_tag db t).1 = db ∧ (upsert_tag db t).2 = .ok (true, l.revision)) ∧
      (∀ (cs : List Conflict) (k : Int) (c : Bool) (rev : Int),
        (upsert_tag db t).2 = .ok (c, rev) → c = true →
        pushTagStep (db, .ok (cs, k)) t =
          ((upsert_tag db t).1, .ok (cs ++
            [{ entity_type := "tag", entity_id := t.id, local_revision := t.revision,
               server_revision := rev, resolution := "server_wins" }], k)))) := by
  refine ⟨?_, ?_, ?_⟩
  · intro db n l hfind
    have hup := upsert_note_some db n l hfind
    have hflag : (upsert_note db n).2.1 = true ↔ n.revision ≤ l.revision := by
      rw [hup]
      by_cases hc : l.revision ≤ n.revision
      · rw [if_pos (decide_eq_true hc)]
        simp
      · rw [if_neg (by simpa using hc)]
        simp
        omega
    refine ⟨hflag, ?_, ?_, ?_⟩
    · intro heq
      rw [hup, if_pos (decide_eq_true (le_of_eq heq.symm))]
      exact ⟨upsertSqlNote_find db.notes n (db.global_revision + 1) l hfind, rfl⟩
    · intro hlt
      rw [hup, if_neg (by simpa using not_le_of_lt hlt)]
      exact ⟨rfl, rfl⟩
    · intro cs k hle
      have hc : (upsert_note db n).2.1 = true := hflag.mpr hle
      simp only [pushNoteStep]
      rw [if_pos hc]
  · intro db n l hfind
    have hup := upsert_notebook_some db n l hfind
    have hflag : (upsert_notebook db n).2.1 = true ↔ n.revision ≤ l.revision := by
      rw [hup]
      by_cases hc : l.revision ≤ n.revision
      · rw [if_pos (decide_eq_true hc)]
        simp
      · rw [if_neg (by simpa using hc)]
        simp
        omega
    refine ⟨hflag, ?_, ?_, ?_⟩
    · intro heq
      rw [hup, if_pos (decide_eq_true (le_of_eq heq.symm))]
      exact ⟨upsertSqlNotebook_find db.notebooks n (db.global_revision + 1) l hfind, rfl⟩
    · intro hlt
      rw [hup, if_neg (by simpa using not_le_of_lt hlt)]
      exact ⟨rfl, rfl⟩
    · intro cs k hle
      have hc : (upsert_notebook db n).2.1 = true := hflag.mpr hle
      simp only [pushNotebookStep]
      rw [if_pos hc]
  · intro db t l hfind
    have hup := upsert_tag_some db t l hfind
    refine ⟨?_, ?_, ?_, ?_, ?_⟩
    · intro c rev heq
      rw [hup] at heq
      by_cases hc : l.revision ≤ t.revision
      · rw [if_pos (decide_eq_true hc)] at heq
        by_cases hcl : db.tags.any (fun x => x.name == t.name && !(x.id == t.id)) = true
        · rw [if_pos hcl] at heq
          exact Except.noConfusion heq
        · rw [if_neg hcl] at heq
          have heq2 : (decide (t.revision ≤ l.revision), db.global_revision + 1)
              = (c, rev) := Except.ok.inj heq
          have h1 : decide (t.revision ≤ l.revision) = c := congrArg Prod.fst heq2
          rw [← h1]
          simp
      · rw [if_neg (by simpa using hc)] at heq
        have heq2 : (true, l.revision) = (c, rev) := Except.ok.inj heq
        have h1 : true = c := congrArg Prod.fst heq2
        rw [← h1]
        constructor
        · intro hx
          omega
        · intro hx
          rfl
    · intro hcl heq
      rw [hup, if_pos (decide_eq_true (le_of_eq heq.symm)), if_neg (by simp [hcl])]
      refine ⟨upsertSqlTag_find db.tags t (db.global_revision + 1) l hfind, ?_⟩
      have hd : decide (t.revision ≤ l.revision) = true := by simp [heq]
      show Except.ok (decide (t.revision ≤ l.revision), db.global_revision + 1)
          = Except.ok (true, db.global_revision + 1)
      rw [hd]
    · intro hcl hle
      rw [hup, if_pos (decide_eq_true hle), if_pos hcl]
    · intro hlt
      rw [hup, if_neg (by simpa using not_le_of_lt hlt)]
      exact ⟨rfl, rfl⟩
    · intro cs k c rev heq hc
      subst hc
      simp only [pushTagStep, heq]
      rw [if_pos trivial]

/-- C2 witness: the tie instance at a concrete server state — stored and
incoming revision are both 1, the store holds the incoming attributes
stamped with global revision 6, and the push step reports a `server_wins`
conflict. -/
theorem C2_server_upsert_tie_applies_incoming_witness :
    findById (fun x => x.id) exServerDb.notes exSNoteIncoming.id = some exSNoteStored ∧
    exSNoteIncoming.revision = exSNoteStored.revision ∧
    (findById (fun x => x.id) (upsert_note exServerDb exSNoteIncoming).1.notes
        exSNoteIncoming.id =
      some { exSNoteStored with
               title := exSNoteIncoming.title, content := exSNoteIncoming.content,
               notebook_id := exSNoteIncoming.notebook_id, tags := exSNoteIncoming.tags,
               status := exSNoteIncoming.status, updated_at := exSNoteIncoming.updated_at,
               revision := exServerDb.global_revision + 1,
               is_deleted := exSNoteIncoming.is_deleted } ∧
     (upsert_note exServerDb exSNoteIncoming).2.2 = exServerDb.global_revision + 1) :=
  ⟨by decide, by decide,
   ((C2_server_upsert_tie_applies_incoming.1 exServerDb exSNoteIncoming exSNoteStored
      (by decide)).2.1 (by decide))⟩

-- ===========================================================================
-- C4
-- ===========================================================================

/-- C4, evaluated at the failing input: the store holds one note whose
serialized tag list is `["a","b"]` (which parses to the two tags `a` and
`b`) and the tag named `a`.  `delete_tag` rewrites the column with SQL
`REPLACE(tags, '"a"', '')`, leaving the string `[,"b"]`, which is
malformed JSON: every later read of the note parses it with
`unwrap_or_default()` and obtains the EMPTY tag list, so the remaining
tag `b` is lost instead of being left intact.  The revision of the
affected note is bumped to 2 as the claim says. -/
theorem C4_delete_tag_corrupts_remaining_tags :
    (parseTags exNoteRowTags.tags).getD [] = ["a", "b"] ∧
    (delete_tag exDbC4 "t1" none "2024-02-01T00:00:00Z").toOption.map
        (fun db => (db.notes.map (fun n => n.tags),
                    db.notes.map (fun n => (parseTags n.tags).getD []),
                    db.notes.map (fun n => n.revision)))
      = some (["[,\"b\"]"], [[]], [2]) ∧
    ([] : List String) ≠ ["b"] := by
  refine ⟨by decide, by decide, by decide⟩

-- ===========================================================================
-- C5
-- ===========================================================================

theorem notebookRefsOkB_hard (nbs : List Notebook) (i : String)
    (h : notebookRefsOkB nbs = true) :
    notebookRefsOkB ((nbs.filter (fun nb => !(nb.id == i))).map (fun nb =>
      if nb.parent_id == some i then { nb with parent_id := none } else nb)) = true := by
  rw [notebookRefsOkB, List.all_eq_true]
  intro x hx
  rw [List.mem_map] at hx
  obtain ⟨nb, hnbmem, hnbx⟩ := hx
  rw [List.mem_filter] at hnbmem
  obtain ⟨hnbdb, hnbid⟩ := hnbmem
  by_cases hp : nb.parent_id = some i
  · have hx2 : x = { nb with parent_id := none } := by
      rw [← hnbx, if_pos (by simpa using hp)]
    rw [hx2]
  · have hx2 : x = nb := by
      rw [← hnbx, if_neg (by simpa using hp)]
    rw [hx2]
    cases hpar : nb.parent_id with
    | none => simp
    | some p =>
      have hpi : p ≠ i := by
        intro hcontra
        exact hp (by rw [hpar, hcontra])
      have hall := (List.all_eq_true.mp h) nb hnbdb
      rw [hpar] at hall
      simp only at hall
      rw [List.any_eq_true] at hall
      obtain ⟨y, hymem, hyid⟩ := hall
      have hyp : y.id = p := by simpa using hyid
      simp only
      rw [List.any_eq_true]
      refine ⟨if y.parent_id == some i then { y with parent_id := none } else y, ?_, ?_⟩
      · rw [List.mem_map]
        refine ⟨y, ?_, rfl⟩
        rw [List.mem_filter]
        refine ⟨hymem, ?_⟩
        simp [hyp, hpi]
      · by_cases hyi : y.parent_id = some i
        · rw [if_pos (by simpa using hyi)]
          simpa using hyp
        · rw [if_neg (by simpa using hyi)]
          simpa using hyp

theorem notebookRefsOkB_soft (nbs : List Notebook) (i now : String)
    (h : notebookRefsOkB nbs = true) :
    notebookRefsOkB (nbs.map (fun nb =>
      if nb.id == i then
        { nb with deleted_at := some now, revision := nb.revision + 1, updated_at := now }
      else nb)) = true := by
  rw [notebookRefsOkB, List.all_eq_true]
  intro x hx
  rw [List.mem_map] at hx
  obtain ⟨nb, hnbmem, hnbx⟩ := hx
  have hxid : x.id = nb.id ∧ x.parent_id = nb.parent_id := by
    rw [← hnbx]
    by_cases hni : nb.id = i
    · rw [if_pos (by simpa using hni)]
      exact ⟨rfl, rfl⟩
    · rw [if_neg (by simpa using hni)]
      exact ⟨rfl, rfl⟩
  cases hpar : x.parent_id with
  | none => simp
  | some p =>
    rw [hxid.2] at hpar
    have hall := (List.all_eq_true.mp h) nb hnbmem
    rw [hpar] at hall
    simp only at hall
    rw [List.any_eq_true] at hall
    obtain ⟨y, hymem, hyid⟩ := hall
    have hyp : y.id = p := by simpa using hyid
    simp only
    rw [List.any_eq_true]
    refine ⟨if y.id == i then
              { y with deleted_at := some now, revision := y.revision + 1,
                       updated_at := now }
            else y, ?_, ?_⟩
    · rw [List.mem_map]
      exact ⟨y, hymem, rfl⟩
    · by_cases hyi : y.id = i
      · rw [if_pos (by simpa using hyi)]
        simpa using hyp
      · rw [if_neg (by simpa using hyi)]
        simpa using hyp

/-- C5: `delete_notebook` preserves the invariant that every non-null
`parent_id` references an existing notebook: the hard variant removes the
notebook row and (through the schema's `ON DELETE SET NULL` foreign-key
action) nulls the `parent_id` of every child notebook, and the soft
variant keeps all rows; moreover after a hard delete of `i` every other
notebook that was a child of `i` survives with its `parent_id` set to
null. -/
theorem C5_delete_notebook_preserves_parent_refs (db : ClientDb) (i now : String)
    (hard : Option Bool) (db' db'h : ClientDb)
    (hro : notebookRefsOkB db.notebooks = true)
    (h1 : delete_notebook db i hard now = .ok db')
    (h2 : delete_notebook db i (some true) now = .ok db'h) :
    notebookRefsOkB db'.notebooks = true ∧
    (∀ nb ∈ db.notebooks, nb.id ≠ i → nb.parent_id = some i →
      ∃ nb2 ∈ db'h.notebooks, nb2.id = nb.id ∧ nb2.parent_id = none) := by
  constructor
  · by_cases hh : hard.getD false
    · have hdb' : db'.notebooks = (db.notebooks.filter (fun nb => !(nb.id == i))).map
          (fun nb => if nb.parent_id == some i then { nb with parent_id := none }
                     else nb) := by
        rw [delete_notebook, if_pos hh] at h1
        rw [← Except.ok.inj h1]
      rw [hdb']
      exact notebookRefsOkB_hard db.notebooks i hro
    · have hdb' : db'.notebooks = db.notebooks.map (fun nb =>
          if nb.id == i then
            { nb with deleted_at := some now, revision := nb.revision + 1,
                      updated_at := now }
          else nb) := by
        rw [delete_notebook, if_neg hh] at h1
        rw [← Except.ok.inj h1]
      rw [hdb']
      exact notebookRefsOkB_soft db.notebooks i now hro
  · intro nb hmem hid hpar
    have hdb' : db'h.notebooks = (db.notebooks.filter (fun nb => !(nb.id == i))).map
        (fun nb => if nb.parent_id == some i then { nb with parent_id := none }
                   else nb) := by
      rw [delete_notebook] at h2
      rw [if_pos (by simp)] at h2
      rw [← Except.ok.inj h2]
    refine ⟨{ nb with parent_id := none }, ?_, rfl, rfl⟩
    rw [hdb', List.mem_map]
    refine ⟨nb, ?_, ?_⟩
    · rw [List.mem_filter]
      exact ⟨hmem, by simpa using hid⟩
    · rw [if_pos (by simpa using hpar)]

/-- C5 witness: hard-deleting notebook `P` in a store where `C` is its
child yields a store whose parent references are intact and where `C`
survives with a null `parent_id`. -/
theorem C5_delete_notebook_preserves_parent_refs_witness :
    notebookRefsOkB exDbC5.notebooks = true ∧
    (notebookRefsOkB ({ notes := [], notebooks := [{ exNbC with parent_id := none }],
                        tags := [], sync_state := some ⟨0, 0, none⟩ } : ClientDb).notebooks
        = true ∧
     (∀ nb ∈ exDbC5.notebooks, nb.id ≠ "P" → nb.parent_id = some "P" →
        ∃ nb2 ∈ ({ notes := [], notebooks := [{ exNbC with parent_id := none }],
                   tags := [], sync_state := some ⟨0, 0, none⟩ } : ClientDb).notebooks,
          nb2.id = nb.id ∧ nb2.parent_id = none)) :=
  ⟨by decide,
   C5_delete_notebook_preserves_parent_refs exDbC5 "P" "2024-02-01T00:00:00Z" (some true)
     { notes := [], notebooks := [{ exNbC with parent_id := none }],
       tags := [], sync_state := some ⟨0, 0, none⟩ }
     { notes := [], notebooks := [{ exNbC with parent_id := none }],
       tags := [], sync_state := some ⟨0, 0, none⟩ }
     (by decide) rfl rfl⟩

-- ===========================================================================
-- C6
-- ===========================================================================

/-- C6 counterexample: on an empty store, `delete_note` and
`delete_notebook` (soft and hard) of an unknown id return success with
the store unchanged — not a `NotFound` error as the claim states (only
`delete_tag` checks existence). -/
theorem C6_delete_unknown_id_counterexample :
    delete_note emptyClientDb "missing" (some false) "2024-02-01T00:00:00Z"
        = .ok emptyClientDb ∧
    delete_note emptyClientDb "missing" (some true) "2024-02-01T00:00:00Z"
        = .ok emptyClientDb ∧
    delete_notebook emptyClientDb "missing" (some false) "2024-02-01T00:00:00Z"
        = .ok emptyClientDb ∧
    delete_notebook emptyClientDb "missing" (some true) "2024-02-01T00:00:00Z"
        = .ok emptyClientDb := by
  refine ⟨rfl, rfl, rfl, rfl⟩

/-- C6 amended: for an id not present in the store, `delete_note` and
`delete_notebook` (soft and hard) return success and leave the store
unchanged rather than returning `NotFound`; for `delete_notebook` this
additionally requires that no note and no notebook references the absent
id, which the foreign-key constraints of the schema guarantee for any
database state. -/
theorem C6_delete_unknown_id_succeeds (db : ClientDb) (i now : String) (hard : Option Bool)
    (hnotes : ∀ n ∈ db.notes, n.id ≠ i)
    (hrefs : ∀ n ∈ db.notes, n.notebook_id ≠ some i)
    (hnbs : ∀ nb ∈ db.notebooks, nb.id ≠ i ∧ nb.parent_id ≠ some i) :
    delete_note db i hard now = .ok db ∧ delete_notebook db i hard now = .ok db := by
  constructor
  · by_cases hh : hard.getD false
    · rw [delete_note, if_pos hh]
      have : db.notes.filter (fun n => !(n.id == i)) = db.notes := by
        rw [List.filter_eq_self]
        intro n hn
        simpa using hnotes n hn
      rw [this]
    · rw [delete_note, if_neg hh]
      have : (db.notes.map (fun n =>
          if n.id == i then
            { n with deleted_at := some now, status := .trashed,
                     revision := n.revision + 1, updated_at := now }
          else n)) = db.notes := by
        have h1 : ∀ n ∈ db.notes, (if n.id == i then
            { n with deleted_at := some now, status := NoteStatus.trashed,
                     revision := n.revision + 1, updated_at := now }
          else n) = id n := by
          intro n hn
          rw [if_neg (by simpa using hnotes n hn)]
          rfl
        rw [List.map_congr_left h1, List.map_id]
      rw [this]
  · have hnotes1 : (db.notes.map (fun n =>
        if n.notebook_id == some i then
          { n with notebook_id := none, revision := n.revision + 1, updated_at := now }
        else n)) = db.notes := by
      have h1 : ∀ n ∈ db.notes, (if n.notebook_id == some i then
          { n with notebook_id := none, revision := n.revision + 1, updated_at := now }
        else n) = id n := by
        intro n hn
        rw [if_neg (by simpa using hrefs n hn)]
        rfl
      rw [List.map_congr_left h1, List.map_id]
    by_cases hh : hard.getD false
    · rw [delete_notebook, if_pos hh]
      have hfil : db.notebooks.filter (fun nb => !(nb.id == i)) = db.notebooks := by
        rw [List.filter_eq_self]
        intro nb hnb
        simpa using (hnbs nb hnb).1
      have hmap : (db.notebooks.map (fun nb =>
          if nb.parent_id == some i then { nb with parent_id := none } else nb))
            = db.notebooks := by
        have h1 : ∀ nb ∈ db.notebooks, (if nb.parent_id == some i then
            { nb with parent_id := none } else nb) = id nb := by
          intro nb hnb
          rw [if_neg (by simpa using (hnbs nb hnb).2)]
          rfl
        rw [List.map_congr_left h1, List.map_id]
      simp only [hnotes1, hfil, hmap]
    · rw [delete_notebook, if_neg hh]
      have hmap : (db.notebooks.map (fun nb =>
          if nb.id == i then
            { nb with deleted_at := some now, revision := nb.revision + 1,
                      updated_at := now }
          else nb)) = db.notebooks := by
        have h1 : ∀ nb ∈ db.notebooks, (if nb.id == i then
            { nb with deleted_at := some now, revision := nb.revision + 1,
                      updated_at := now }
          else nb) = id nb := by
          intro nb hnb
          rw [if_neg (by simpa using (hnbs nb hnb).1)]
          rfl
        rw [List.map_congr_left h1, List.map_id]
      simp only [hnotes1, hmap]

/-- C6 witness: the amended statement at a store holding one note, one
notebook and one tag, deleting the absent id `missing`. -/
theorem C6_delete_unknown_id_succeeds_witness :
    delete_note exDbC7 "missing" (some false) "2024-02-01T00:00:00Z" = .ok exDbC7 ∧
    delete_notebook exDbC7 "missing" (some false) "2024-02-01T00:00:00Z" = .ok exDbC7 :=
  C6_delete_unknown_id_succeeds exDbC7 "missing" "2024-02-01T00:00:00Z" (some false)
    (by decide) (by decide) (by decide)

-- ===========================================================================
-- C8
-- ===========================================================================

theorem upsert_note_none (db : ServerDb) (n : SNote)
    (hfind : findById (fun x => x.id) db.notes n.id = none) :
    upsert_note db n =
      ({ db with notes := upsertSqlNote db.notes n (db.global_revision + 1),
                 global_revision := db.global_revision + 1 },
       false, db.global_revision + 1) := by
  simp only [upsert_note, hfind, Option.map_none, increment_global_revision]
  rfl

theorem upsert_notebook_none (db : ServerDb) (n : SNotebook)
    (hfind : findById (fun x => x.id) db.notebooks n.id = none) :
    upsert_notebook db n =
      ({ db with notebooks := upsertSqlNotebook db.notebooks n (db.global_revision + 1),
                 global_revision := db.global_revision + 1 },
       false, db.global_revision + 1) := by
  simp only [upsert_notebook, hfind, Option.map_none, increment_global_revision]
  rfl

theorem upsert_tag_none (db : ServerDb) (t : STag)
    (hfind : findById (fun x => x.id) db.tags t.id = none) :
    upsert_tag db t =
      (if db.tags.any (fun x => x.name == t.name && !(x.id == t.id)) then
        ({ db with global_revision := db.global_revision + 1 },
         .error (AppError.Database "UNIQUE constraint failed: tags.name"))
      else
        ({ db with tags := upsertSqlTag db.tags t (db.global_revision + 1),
                   global_revision := db.global_revision + 1 },
         .ok (false, db.global_revision + 1))) := by
  simp only [upsert_tag, hfind, Option.map_none, increment_global_revision]
  rfl

theorem upsertSqlNote_rev_bound (rows : List SNote) (n : SNote) (g : Int)
    (h : ∀ x ∈ rows, x.revision ≤ g) :
    ∀ x ∈ upsertSqlNote rows n (g + 1), x.revision ≤ g + 1 := by
  intro x hx
  unfold upsertSqlNote at hx
  by_cases hany : rows.any (fun l => l.id == n.id) = true
  · rw [if_pos hany] at hx
    rw [List.mem_map] at hx
    obtain ⟨l, hl, hlx⟩ := hx
    by_cases hli : l.id = n.id
    · rw [if_pos (by simpa using hli)] at hlx
      rw [← hlx]
    · rw [if_neg (by simpa using hli)] at hlx
      rw [← hlx]
      exact le_trans (h l hl) (by omega)
  · rw [if_neg hany] at hx
    rw [List.mem_append] at hx
    cases hx with
    | inl hmem => exact le_trans (h x hmem) (by omega)
    | inr hone =>
      rw [List.mem_singleton] at hone
      rw [hone]

theorem upsertSqlNotebook_rev_bound (rows : List SNotebook) (n : SNotebook) (g : Int)
    (h : ∀ x ∈ rows, x.revision ≤ g) :
    ∀ x ∈ upsertSqlNotebook rows n (g + 1), x.revision ≤ g + 1 := by
  intro x hx
  unfold upsertSqlNotebook at hx
  by_cases hany : rows.any (fun l => l.id == n.id) = true
  · rw [if_pos hany] at hx
    rw [List.mem_map] at hx
    obtain ⟨l, hl, hlx⟩ := hx
    by_cases hli : l.id = n.id
    · rw [if_pos (by simpa using hli)] at hlx
      rw [← hlx]
    · rw [if_neg (by simpa using hli)] at hlx
      rw [← hlx]
      exact le_trans (h l hl) (by omega)
  · rw [if_neg hany] at hx
    rw [List.mem_append] at hx
    cases hx with
    | inl hmem => exact le_trans (h x hmem) (by omega)
    | inr hone =>
      rw [List.mem_singleton] at hone
      rw [hone]

theorem upsertSqlTag_rev_bound (rows : List STag) (t : STag) (g : Int)
    (h : ∀ x ∈ rows, x.revision ≤ g) :
    ∀ x ∈ upsertSqlTag rows t (g + 1), x.revision ≤ g + 1 := by
  intro x hx
  unfold upsertSqlTag at hx
  by_cases hany : rows.any (fun l => l.id == t.id) = true
  · rw [if_pos hany] at hx
    rw [List.mem_map] at hx
    obtain ⟨l, hl, hlx⟩ := hx
    by_cases hli : l.id = t.id
    · rw [if_pos (by simpa using hli)] at hlx
      rw [← hlx]
    · rw [if_neg (by simpa using hli)] at hlx
      rw [← hlx]
      exact le_trans (h l hl) (by omega)
  · rw [if_neg hany] at hx
    rw [List.mem_append] at hx
    cases hx with
    | inl hmem => exact le_trans (h x hmem) (by omega)
    | inr hone =>
      rw [List.mem_singleton] at hone
      rw [hone]

theorem serverReachable_rev_bound {db : ServerDb} (h : ServerReachable db) :
    (∀ x ∈ db.notes, x.revision ≤ db.global_revision) ∧
    (∀ x ∈ db.notebooks, x.revision ≤ db.global_revision) ∧
    (∀ x ∈ db.tags, x.revision ≤ db.global_revision) := by
  induction h with
  | init =>
    refine ⟨?_, ?_, ?_⟩ <;> intro x hx <;> simp [serverInit] at hx
  | @upNote db hr n ih =>
    obtain ⟨ih1, ih2, ih3⟩ := ih
    cases hfind : findById (fun x => x.id) db.notes n.id with
    | none =>
      rw [upsert_note_none db n hfind]
      dsimp only
      exact ⟨upsertSqlNote_rev_bound db.notes n db.global_revision ih1,
             fun x hx => le_trans (ih2 x hx) (by omega),
             fun x hx => le_trans (ih3 x hx) (by omega)⟩
    | some l =>
      rw [upsert_note_some db n l hfind]
      by_cases hc : l.revision ≤ n.revision
      · rw [if_pos (decide_eq_true hc)]
        dsimp only
        exact ⟨upsertSqlNote_rev_bound db.notes n db.global_revision ih1,
               fun x hx => le_trans (ih2 x hx) (by omega),
               fun x hx => le_trans (ih3 x hx) (by omega)⟩
      · rw [if_neg (by simpa using hc)]
        exact ⟨ih1, ih2, ih3⟩
  | @upNotebook db hr n ih =>
    obtain ⟨ih1, ih2, ih3⟩ := ih
    cases hfind : findById (fun x => x.id) db.notebooks n.id with
    | none =>
      rw [upsert_notebook_none db n hfind]
      dsimp only
      exact ⟨fun x hx => le_trans (ih1 x hx) (by omega),
             upsertSqlNotebook_rev_bound db.notebooks n db.global_revision ih2,
             fun x hx => le_trans (ih3 x hx) (by omega)⟩
    | some l =>
      rw [upsert_notebook_some db n l hfind]
      by_cases hc : l.revision ≤ n.revision
      · rw [if_pos (decide_eq_true hc)]
        dsimp only
        exact ⟨fun x hx => le_trans (ih1 x hx) (by omega),
               upsertSqlNotebook_rev_bound db.notebooks n db.global_revision ih2,
               fun x hx => le_trans (ih3 x hx) (by omega)⟩
      · rw [if_neg (by simpa using hc)]
        exact ⟨ih1, ih2, ih3⟩
  | @upTag db hr t ih =>
    obtain ⟨ih1, ih2, ih3⟩ := ih
    cases hfind : findById (fun x => x.id) db.tags t.id with
    | none =>
      rw [upsert_tag_none db t hfind]
      by_cases hcl : db.tags.any (fun x => x.name == t.name && !(x.id == t.id)) = true
      · rw [if_pos hcl]
        dsimp only
        exact ⟨fun x hx => le_trans (ih1 x hx) (by omega),
               fun x hx => le_trans (ih2 x hx) (by omega),
               fun x hx => le_trans (ih3 x hx) (by omega)⟩
      · rw [if_neg hcl]
        dsimp only
        exact ⟨fun x hx => le_trans (ih1 x hx) (by omega),
               fun x hx => le_trans (ih2 x hx) (by omega),
               upsertSqlTag_rev_bound db.tags t db.global_revision ih3⟩
    | some l =>
      rw [upsert_tag_some db t l hfind]
      by_cases hc : l.revision ≤ t.revision
      · rw [if_pos (decide_eq_true hc)]
        by_cases hcl : db.tags.any (fun x => x.name == t.name && !(x.id == t.id)) = true
        · rw [if_pos hcl]
          dsimp only
          exact ⟨fun x hx => le_trans (ih1 x hx) (by omega),
                 fun x hx => le_trans (ih2 x hx) (by omega),
                 fun x hx => le_trans (ih3 x hx) (by omega)⟩
        · rw [if_neg hcl]
          dsimp only
          exact ⟨fun x hx => le_trans (ih1 x hx) (by omega),
                 fun x hx => le_trans (ih2 x hx) (by omega),
                 upsertSqlTag_rev_bound db.tags t db.global_revision ih3⟩
      · rw [if_neg (by simpa using hc)]
        exact ⟨ih1, ih2, ih3⟩

/-- C8: every reachable server state stamps its rows with revisions bounded
by the global revision, so a pull whose `last_sync_revision` equals the
current global revision returns empty notes, notebooks and tags. -/
theorem C8_pull_at_current_revision_is_empty (db : ServerDb) (d : String)
    (h : ServerReachable db) :
    pull db { device_id := d, last_sync_revision := db.global_revision } =
      { notes := [], notebooks := [], tags := [],
        server_revision := db.global_revision } := by
  obtain ⟨h1, h2, h3⟩ := serverReachable_rev_bound h
  have e1 : get_notes_since db db.global_revision = [] := by
    rw [get_notes_since, List.filter_eq_nil_iff]
    intro a ha
    simp only [decide_eq_true_eq]
    exact not_lt.mpr (h1 a ha)
  have e2 : get_notebooks_since db db.global_revision = [] := by
    rw [get_notebooks_since, List.filter_eq_nil_iff]
    intro a ha
    simp only [decide_eq_true_eq]
    exact not_lt.mpr (h2 a ha)
  have e3 : get_tags_since db db.global_revision = [] := by
    rw [get_tags_since, List.filter_eq_nil_iff]
    intro a ha
    simp only [decide_eq_true_eq]
    exact not_lt.mpr (h3 a ha)
  simp only [pull, e1, e2, e3]

/-- C8 witness: after one upsert into a fresh server, pulling with the
cursor at the current global revision returns empty sets. -/
theorem C8_pull_at_current_revision_is_empty_witness :
    pull (upsert_note serverInit exSNoteStored).1
      { device_id := "dev",
        last_sync_revision := (upsert_note serverInit exSNoteStored).1.global_revision } =
      { notes := [], notebooks := [], tags := [],
        server_revision := (upsert_note serverInit exSNoteStored).1.global_revision } :=
  C8_pull_at_current_revision_is_empty (upsert_note serverInit exSNoteStored).1 "dev"
    (ServerReachable.upNote ServerReachable.init exSNoteStored)

-- ===========================================================================
-- C7
-- ===========================================================================

theorem findById_eq_none_of_not_mem {α : Type} (idOf : α → String) (rows : List α)
    (i : String) (h : ∀ x ∈ rows, idOf x ≠ i) : findById idOf rows i = none := by
  rw [findById, List.find?_eq_none]
  intro x hx
  simpa using h x hx

theorem importNotebookStep_fresh (ov : Bool) (db : ClientDb) (stats : ImportStats)
    (nb : Notebook)
    (hfresh : ∀ x ∈ db.notebooks, x.id ≠ nb.id)
    (hfk : ∀ p, nb.parent_id = some p →
      ((db.notebooks ++ [nb]).any (fun x => x.id == p)) = true) :
    importNotebookStep ov (.ok (db, stats)) nb =
      .ok ({ db with notebooks := db.notebooks ++ [nb] },
           { stats with notebooks_imported := stats.notebooks_imported + 1 }) := by
  have hfind : findById (fun x => x.id) db.notebooks nb.id = none :=
    findById_eq_none_of_not_mem (fun x => x.id) db.notebooks nb.id hfresh
  have happ : replaceById (fun x => x.id) db.notebooks nb = db.notebooks ++ [nb] :=
    replaceById_eq_append (fun x => x.id) db.notebooks nb hfresh
  simp only [importNotebookStep, hfind, Option.isSome_none, Bool.false_and,
    Bool.false_eq_true, if_false, happ]
  cases hp : nb.parent_id with
  | none => simp
  | some p =>
    have := hfk p hp
    have hsome : (findById (fun x => x.id) (db.notebooks ++ [nb]) p).isSome = true := by
      rw [findById, List.find?_isSome]
      rw [List.any_eq_true] at this
      obtain ⟨x, hx1, hx2⟩ := this
      exact ⟨x, hx1, hx2⟩
    simp [hsome]

theorem import_notebooks_fold (ov : Bool) (nbs : List Notebook) :
    ∀ (db : ClientDb) (stats : ImportStats),
      ((db.notebooks.map (fun x => x.id)) ++ (nbs.map (fun x => x.id))).Nodup →
      parentClosed db.notebooks nbs = true →
      ∃ stats', nbs.foldl (importNotebookStep ov) (.ok (db, stats)) =
        .ok ({ db with notebooks := db.notebooks ++ nbs }, stats') := by
  induction nbs with
  | nil =>
    intro db stats _ _
    exact ⟨stats, by rw [List.foldl_nil, List.append_nil]⟩
  | cons nb rest ih =>
    intro db stats hnodup hclosed
    rw [List.map_cons] at hnodup
    have hdisj := (List.nodup_append.mp hnodup).2.2
    have hfresh : ∀ x ∈ db.notebooks, x.id ≠ nb.id := by
      intro x hx heq
      exact hdisj (List.mem_map_of_mem _ hx) (by rw [heq]; exact List.mem_cons_self _ _)
    have hsplit := Bool.and_eq_true_iff.mp hclosed
    have hfk : ∀ p, nb.parent_id = some p →
        ((db.notebooks ++ [nb]).any (fun x => x.id == p)) = true := by
      intro p hp
      have h1 := hsplit.1
      rw [hp] at h1
      exact h1
    have hnodup' : (((db.notebooks ++ [nb]).map (fun x => x.id))
        ++ (rest.map (fun x => x.id))).Nodup := by
      have he : (((db.notebooks ++ [nb]).map (fun x => x.id))
          ++ (rest.map (fun x => x.id)))
          = (db.notebooks.map (fun x => x.id)
              ++ (nb.id :: rest.map (fun x => x.id))) := by
        simp
      rw [he]
      exact hnodup
    obtain ⟨stats', hrec⟩ := ih { db with notebooks := db.notebooks ++ [nb] }
      { stats with notebooks_imported := stats.notebooks_imported + 1 }
      hnodup' hsplit.2
    refine ⟨stats', ?_⟩
    rw [List.foldl_cons, importNotebookStep_fresh ov db stats nb hfresh hfk, hrec]
    simp [List.append_assoc]

theorem importTagStep_fresh (ov : Bool) (db : ClientDb) (stats : ImportStats) (t : Tag)
    (hfresh : ∀ x ∈ db.tags, x.id ≠ t.id) :
    importTagStep ov (.ok (db, stats)) t =
      .ok ({ db with tags := db.tags ++ [t] },
           { stats with tags_imported := stats.tags_imported + 1 }) := by
  have hfind : findById (fun x => x.id) db.tags t.id = none :=
    findById_eq_none_of_not_mem (fun x => x.id) db.tags t.id hfresh
  have happ : replaceById (fun x => x.id) db.tags t = db.tags ++ [t] :=
    replaceById_eq_append (fun x => x.id) db.tags t hfresh
  simp only [importTagStep, hfind, Option.isSome_none, Bool.false_and,
    Bool.false_eq_true, if_false, happ]

theorem import_tags_fold (ov : Bool) (ts : List Tag) :
    ∀ (db : ClientDb) (stats : ImportStats),
      ((db.tags.map (fun x => x.id)) ++ (ts.map (fun x => x.id))).Nodup →
      ∃ stats', ts.foldl (importTagStep ov) (.ok (db, stats)) =
        .ok ({ db with tags := db.tags ++ ts }, stats') := by
  induction ts with
  | nil =>
    intro db stats _
    exact ⟨stats, by rw [List.foldl_nil, List.append_nil]⟩
  | cons t rest ih =>
    intro db stats hnodup
    rw [List.map_cons] at hnodup
    have hdisj := (List.nodup_append.mp hnodup).2.2
    have hfresh : ∀ x ∈ db.tags, x.id ≠ t.id := by
      intro x hx heq
      exact hdisj (List.mem_map_of_mem _ hx) (by rw [heq]; exact List.mem_cons_self _ _)
    have hnodup' : (((db.tags ++ [t]).map (fun x => x.id))
        ++ (rest.map (fun x => x.id))).Nodup := by
      have he : (((db.tags ++ [t]).map (fun x => x.id)) ++ (rest.map (fun x => x.id)))
          = (db.tags.map (fun x => x.id) ++ (t.id :: rest.map (fun x => x.id))) := by
        simp
      rw [he]
      exact hnodup
    obtain ⟨stats', hrec⟩ := ih { db with tags := db.tags ++ [t] }
      { stats with tags_imported := stats.tags_imported + 1 } hnodup'
    refine ⟨stats', ?_⟩
    rw [List.foldl_cons, importTagStep_fresh ov db stats t hfresh, hrec]
    simp [List.append_assoc]

theorem importNoteStep_fresh (ov : Bool) (db : ClientDb) (stats : ImportStats) (n : Note)
    (hfresh : ∀ x ∈ db.notes, x.id ≠ n.id)
    (hfk : ∀ p, n.notebook_id = some p →
      (findById (fun x => x.id) db.notebooks p).isSome = true) :
    importNoteStep ov (.ok (db, stats)) n =
      .ok ({ db with notes := db.notes ++ [noteToRow n] },
           { stats with notes_imported := stats.notes_imported + 1 }) := by
  have hfind : findById (fun x => x.id) db.notes n.id = none :=
    findById_eq_none_of_not_mem (fun x => x.id) db.notes n.id hfresh
  have happ : replaceById (fun x => x.id) db.notes (noteToRow n)
      = db.notes ++ [noteToRow n] :=
    replaceById_eq_append (fun x => x.id) db.notes (noteToRow n) hfresh
  simp only [importNoteStep, hfind, Option.isSome_none, Bool.false_and,
    Bool.false_eq_true, if_false, happ]
  cases hp : n.notebook_id with
  | none => simp
  | some p => simp [hfk p hp]

theorem import_notes_fold (ov : Bool) (ns : List Note) :
    ∀ (db : ClientDb) (stats : ImportStats),
      ((db.notes.map (fun x => x.id)) ++ (ns.map (fun x => x.id))).Nodup →
      (∀ n ∈ ns, ∀ p, n.notebook_id = some p →
        (findById (fun x => x.id) db.notebooks p).isSome = true) →
      ∃ stats', ns.foldl (importNoteStep ov) (.ok (db, stats)) =
        .ok ({ db with notes := db.notes ++ ns.map noteToRow }, stats') := by
  induction ns with
  | nil =>
    intro db stats _ _
    exact ⟨stats, by rw [List.foldl_nil, List.map_nil, List.append_nil]⟩
  | cons n rest ih =>
    intro db stats hnodup hfk
    rw [List.map_cons] at hnodup
    have hdisj := (List.nodup_append.mp hnodup).2.2
    have hfresh : ∀ x ∈ db.notes, x.id ≠ n.id := by
      intro x hx heq
      exact hdisj (List.mem_map_of_mem _ hx) (by rw [heq]; exact List.mem_cons_self _ _)
    have hnodup' : (((db.notes ++ [noteToRow n]).map (fun x => x.id))
        ++ (rest.map (fun x => x.id))).Nodup := by
      have he : (((db.notes ++ [noteToRow n]).map (fun x => x.id))
          ++ (rest.map (fun x => x.id)))
          = (db.notes.map (fun x => x.id) ++ (n.id :: rest.map (fun x => x.id))) := by
        simp [noteToRow]
      rw [he]
      exact hnodup
    have hfk' : ∀ m ∈ rest, ∀ p, m.notebook_id = some p →
        (findById (fun x => x.id)
          ({ db with notes := db.notes ++ [noteToRow n] } : ClientDb).notebooks p).isSome
            = true := by
      intro m hm p hp
      exact hfk m (List.mem_cons_of_mem _ hm) p hp
    obtain ⟨stats', hrec⟩ := ih { db with notes := db.notes ++ [noteToRow n] }
      { stats with notes_imported := stats.notes_imported + 1 } hnodup' hfk'
    refine ⟨stats', ?_⟩
    rw [List.foldl_cons,
      importNoteStep_fresh ov db stats n hfresh
        (fun p hp => hfk n (List.mem_cons_self _ _) p hp), hrec]
    simp [List.append_assoc]

/-- C7 amended: the backup round trip into an empty store with
`overwrite_existing = true` reproduces exactly the rows of `S`, provided
(as the schema and the writers guarantee for canonical states) the ids of
each table are distinct, every notebook's parent occurs earlier in the
notebooks table (otherwise the import's foreign-key check fails), every
note's notebook reference resolves, and every note row's tags column is
the canonical serialization of its parsed tag list.  Without the last
hypothesis a note row comes back with its tags column re-serialized from
the parse (see the counterexample). -/
theorem C7_backup_roundtrip_canonical (db : ClientDb) (now path : String)
    (hn1 : (db.notes.map (fun x => x.id)).Nodup)
    (hn2 : (db.notebooks.map (fun x => x.id)).Nodup)
    (hn3 : (db.tags.map (fun x => x.id)).Nodup)
    (hpar : parentClosed [] db.notebooks = true)
    (hfk : ∀ n ∈ db.notes, ∀ p, n.notebook_id = some p →
      (findById (fun x => x.id) db.notebooks p).isSome = true)
    (hcanon : ∀ n ∈ db.notes, jsonEncodeTags ((parseTags n.tags).getD []) = n.tags) :
    (import_from_zip emptyClientDb (export_to_zip db now path).1 true).toOption.map
        (fun x => (x.1.notes, x.1.notebooks, x.1.tags))
      = some (db.notes, db.notebooks, db.tags) := by
  obtain ⟨s1, h1⟩ := import_notebooks_fold true db.notebooks emptyClientDb
    ⟨0, 0, 0, 0, 0, 0⟩ (by simpa [emptyClientDb] using hn2) hpar
  obtain ⟨s2, h2⟩ := import_tags_fold true db.tags
    { emptyClientDb with notebooks := emptyClientDb.notebooks ++ db.notebooks } s1
    (by simpa [emptyClientDb] using hn3)
  obtain ⟨s3, h3⟩ := import_notes_fold true (db.notes.map rowToNote)
    { emptyClientDb with notebooks := emptyClientDb.notebooks ++ db.notebooks,
                         tags := emptyClientDb.tags ++ db.tags } s2
    (by simpa [emptyClientDb, rowToNote, List.map_map, Function.comp] using hn1)
    (by
      intro m hm p hp
      rw [List.mem_map] at hm
      obtain ⟨r, hr, hrm⟩ := hm
      have hid : m.notebook_id = r.notebook_id := by rw [← hrm]; rfl
      rw [hid] at hp
      exact hfk r hr p hp)
  have hmm : (db.notes.map rowToNote).map noteToRow = db.notes := by
    rw [List.map_map]
    have hpt : ∀ r ∈ db.notes, (noteToRow ∘ rowToNote) r = id r := by
      intro r hr
      show noteToRow (rowToNote r) = r
      have he : noteToRow (rowToNote r) =
          { r with tags := jsonEncodeTags ((parseTags r.tags).getD []) } := rfl
      rw [he, hcanon r hr]
    rw [List.map_congr_left hpt, List.map_id]
  have hfinal : import_from_zip emptyClientDb (export_to_zip db now path).1 true =
      .ok ({ emptyClientDb with
               notebooks := emptyClientDb.notebooks ++ db.notebooks,
               tags := emptyClientDb.tags ++ db.tags,
               notes := emptyClientDb.notes ++ (db.notes.map rowToNote).map noteToRow },
           s3) := by
    simp only [import_from_zip, export_to_zip, get_export_data]
    rw [h1, h2, h3]
  rw [hfinal]
  simp only [Except.toOption, Option.map]
  rw [hmm]
  simp [emptyClientDb]

/-- C7 counterexample: a store whose only note row carries the serialized
tag column `[,"b"]` (exactly what `delete_tag` leaves behind of
`["a","b"]`, so such states are reachable).  Exporting parses the column
with `unwrap_or_default()` to the empty list and importing re-serializes
it, so the round trip produces the row with tags column `[]` — not the
original row, refuting the claim for this store. -/
theorem C7_backup_roundtrip_counterexample :
    (import_from_zip emptyClientDb
        (export_to_zip exDbC7bad "2024-02-01T00:00:00Z" "backup.zip").1 true).toOption.map
        (fun x => x.1.notes.map (fun n => n.tags))
      = some ["[]"] ∧
    exDbC7bad.notes.map (fun n => n.tags) = ["[,\"b\"]"] ∧
    (["[]"] : List String) ≠ ["[,\"b\"]"] := by
  refine ⟨by decide, by decide, by decide⟩

/-- C7 witness: the amended round trip at a concrete store with a notebook
hierarchy, a tag, a live note with a canonical tag column, and a
tombstoned note. -/
theorem C7_backup_roundtrip_canonical_witness :
    (import_from_zip emptyClientDb
        (export_to_zip exDbC7 "2024-02-01T00:00:00Z" "backup.zip").1 true).toOption.map
        (fun x => (x.1.notes, x.1.notebooks, x.1.tags))
      = some (exDbC7.notes, exDbC7.notebooks, exDbC7.tags) :=
  C7_backup_roundtrip_canonical exDbC7 "2024-02-01T00:00:00Z" "backup.zip"
    (by decide) (by decide) (by decide) (by decide)
    (by
      intro n hn p hp
      have hn' : n = exNoteRowC7a ∨ n = exNoteRowC7b := by
        simpa [exDbC7] using hn
      rcases hn' with h | h
      · subst h
        have hp' : p = "P" := (Option.some.inj hp).symm
        subst hp'
        decide
      · subst h
        exact absurd hp (by simp [exNoteRowC7b, exNoteRowA]))
    (by decide)
